import Mathlib

/-!
Shallow embedding of the Sky Battles server game room
(src/server/index.ts, class GameRoom, together with the balance data of
src/shared/constants.ts).

Modelling conventions:

* JavaScript numbers are embedded as rationals.  The transcendental
  library functions Math.cos, Math.sin, Math.sqrt and Math.atan2 are
  modelled as an abstract environment `MathEnv`; theorems quantify over
  the environment, and concrete instantiations are only ever evaluated
  at points where the chosen instantiation agrees with the mathematical
  function (for example sqrt 0 = 0).
* Math.random() and Date.now() are passed as explicit parameters.
* The values Infinity and NaN that the source manufactures inside
  rayRectIntersect (invDx = Infinity when dx is 0, 0 * Infinity = NaN)
  are modelled by the type `JVal` with IEEE comparison semantics.
* JavaScript Maps are modelled as insertion-ordered association lists:
  set replaces the first entry with the key or appends, delete removes
  the entries with the key, lookup finds the first entry.
* setTimeout timers (reload, spawn protection) are modelled as sets of
  pending player ids plus explicit timer-firing operations; clearTimeout
  removes the id, so a fired operation is gated on the id being pending.
* Loops of the source that mutate the iterated Map (deletions, and the
  wholesale clearing done by endGame) are modelled by folding over a
  snapshot of the keys and re-looking every key up in the current state,
  which coincides with JavaScript live-Map iteration because these loops
  never insert new keys.
-/

namespace SkyBattles

/-! ### Constants (src/shared/constants.ts) -/

def GAME_WIDTH : ℚ := 1024
def GAME_HEIGHT : ℚ := 768
def TICK_RATE : ℚ := 20
def MAX_PLAYERS : ℕ := 4
def PLAYER_RADIUS : ℚ := 20
def MAX_HEALTH : ℚ := 100
def KILL_LIMIT : ℕ := 11
def MIN_Z : ℚ := 0
def MAX_Z : ℚ := 100
def DEFAULT_Z : ℚ := 20
def Z_HIT_TOLERANCE : ℚ := 15
def GRAVITY : ℚ := 1/2

/-- src/server/index.ts line 1200. -/
def MAX_PROJECTILES_PER_PLAYER : ℕ := 50

inductive MovementType where
  | wings
  | fireJetpack
  | waterJetpack
  | levitation
deriving DecidableEq

inductive WeaponType where
  | machineGun
  | pulseLaser
  | sniper
  | rocket
deriving DecidableEq

inductive ArenaId where
  | center
  | top
  | bottom
  | left
  | right
  | spawnNW
  | spawnNE
  | spawnSW
  | spawnSE
deriving DecidableEq

structure MovementStats where
  speed : ℚ
  acceleration : ℚ
  friction : ℚ
  zClimbRate : ℚ
  zFallRate : ℚ
  fuel : ℚ
  fuelDrain : ℚ
  fuelRegen : ℚ
  canHover : Bool

def MOVEMENT_STATS : MovementType → MovementStats
  | .wings =>
      { speed := 8, acceleration := 6/10, friction := 92/100, zClimbRate := 1,
        zFallRate := 3/10, fuel := 0, fuelDrain := 0, fuelRegen := 0, canHover := false }
  | .fireJetpack =>
      { speed := 5, acceleration := 8/10, friction := 88/100, zClimbRate := 5,
        zFallRate := 2, fuel := 100, fuelDrain := 3, fuelRegen := 3/2, canHover := false }
  | .waterJetpack =>
      { speed := 5, acceleration := 5/10, friction := 9/10, zClimbRate := 2,
        zFallRate := 1, fuel := 100, fuelDrain := 1, fuelRegen := 5/2, canHover := true }
  | .levitation =>
      { speed := 3, acceleration := 3/10, friction := 95/100, zClimbRate := 1,
        zFallRate := 0, fuel := 0, fuelDrain := 0, fuelRegen := 0, canHover := true }

structure WeaponStats where
  damage : ℚ
  fireRate : ℚ
  projectileSpeed : ℚ
  range : ℚ
  spread : ℚ
  clipSize : ℤ
  reloadTime : ℚ
  isHitscan : Bool

def WEAPON_STATS : WeaponType → WeaponStats
  | .machineGun =>
      { damage := 8, fireRate := 10, projectileSpeed := 15, range := 400,
        spread := 1/10, clipSize := 30, reloadTime := 40, isHitscan := false }
  | .pulseLaser =>
      { damage := 25, fireRate := 2, projectileSpeed := 20, range := 600,
        spread := 0, clipSize := 8, reloadTime := 30, isHitscan := false }
  | .sniper =>
      { damage := 100, fireRate := 1/2, projectileSpeed := 0, range := 1000,
        spread := 0, clipSize := 1, reloadTime := 40, isHitscan := true }
  | .rocket =>
      { damage := 50, fireRate := 1, projectileSpeed := 12, range := 600,
        spread := 0, clipSize := 4, reloadTime := 50, isHitscan := false }

structure Rect where
  x : ℚ
  y : ℚ
  width : ℚ
  height : ℚ
deriving DecidableEq

structure ObstacleDef where
  id : String
  x : ℚ
  y : ℚ
  width : ℚ
  height : ℚ
  health : ℚ
deriving DecidableEq

structure SpawnPoint where
  x : ℚ
  y : ℚ
deriving DecidableEq

/-- Arena definition; the platform and door data of the source is cosmetic
for the embedded server logic (never read by the game-room code embedded
here) and is omitted. -/
structure ArenaDefinition where
  width : ℚ
  height : ℚ
  walls : List Rect
  breakableObstacles : List ObstacleDef
  spawnPoints : List SpawnPoint
deriving DecidableEq

def ARENAS : ArenaId → ArenaDefinition
  | .center =>
      { width := GAME_WIDTH, height := GAME_HEIGHT,
        walls := [⟨462, 334, 100, 100⟩],
        breakableObstacles :=
          [⟨"center_nw", 200, 200, 60, 60, 50⟩,
           ⟨"center_ne", 764, 200, 60, 60, 50⟩,
           ⟨"center_sw", 200, 508, 60, 60, 50⟩,
           ⟨"center_se", 764, 508, 60, 60, 50⟩,
           ⟨"center_mid_top", 350, 150, 80, 40, 35⟩,
           ⟨"center_mid_bot", 594, 578, 80, 40, 35⟩],
        spawnPoints := [⟨100, 100⟩, ⟨924, 100⟩, ⟨100, 668⟩, ⟨924, 668⟩] }
  | .top =>
      { width := GAME_WIDTH, height := GAME_HEIGHT,
        walls := [⟨150, 100, 60, 500⟩, ⟨400, 200, 60, 400⟩,
                  ⟨600, 100, 60, 500⟩, ⟨850, 200, 60, 400⟩],
        breakableObstacles := [],
        spawnPoints := [⟨50, 700⟩, ⟨974, 700⟩] }
  | .bottom =>
      { width := GAME_WIDTH, height := GAME_HEIGHT,
        walls := [⟨200, 0, 40, 300⟩, ⟨200, 400, 40, 368⟩, ⟨400, 100, 40, 400⟩,
                  ⟨600, 268, 40, 500⟩, ⟨800, 0, 40, 400⟩, ⟨800, 500, 40, 268⟩],
        breakableObstacles := [],
        spawnPoints := [⟨100, 384⟩, ⟨924, 384⟩] }
  | .left =>
      { width := GAME_WIDTH, height := GAME_HEIGHT,
        walls := [⟨0, 300, 400, 40⟩, ⟨300, 340, 100, 200⟩],
        breakableObstacles := [],
        spawnPoints := [⟨200, 200⟩, ⟨800, 650⟩] }
  | .right =>
      { width := GAME_WIDTH, height := GAME_HEIGHT,
        walls := [⟨150, 150, 200, 40⟩, ⟨150, 150, 40, 200⟩, ⟨450, 100, 40, 300⟩,
                  ⟨450, 100, 200, 40⟩, ⟨650, 100, 40, 200⟩, ⟨200, 450, 300, 40⟩,
                  ⟨200, 450, 40, 200⟩, ⟨600, 400, 40, 300⟩, ⟨600, 400, 200, 40⟩,
                  ⟨750, 550, 200, 40⟩],
        breakableObstacles := [],
        spawnPoints := [⟨80, 80⟩, ⟨944, 688⟩] }
  | .spawnNW =>
      { width := 200, height := 200, walls := [], breakableObstacles := [],
        spawnPoints := [⟨100, 100⟩] }
  | .spawnNE =>
      { width := 200, height := 200, walls := [], breakableObstacles := [],
        spawnPoints := [⟨100, 100⟩] }
  | .spawnSW =>
      { width := 200, height := 200, walls := [], breakableObstacles := [],
        spawnPoints := [⟨100, 100⟩] }
  | .spawnSE =>
      { width := 200, height := 200, walls := [], breakableObstacles := [],
        spawnPoints := [⟨100, 100⟩] }

/-! ### Abstract JavaScript Math environment -/

/-- The transcendental Math functions used by the source, abstracted. -/
structure MathEnv where
  cos : ℚ → ℚ
  sin : ℚ → ℚ
  sqrt : ℚ → ℚ
  atan2 : ℚ → ℚ → ℚ

/-- Environment used for closed evaluations; it agrees with the exact
Math functions at every point where those evaluations apply it
(only sqrt 0 = 0 is ever used on such paths). -/
def testEnv : MathEnv :=
  { cos := fun _ => 0, sin := fun _ => 0, sqrt := fun _ => 0, atan2 := fun _ _ => 0 }

/-! ### State structures (src/shared/types.ts) -/

structure InputState where
  left : Bool
  right : Bool
  up : Bool
  down : Bool
  jump : Bool
  crouch : Bool
  shooting : Bool
  mouseAngle : ℚ
deriving DecidableEq

/-- The all-false input record of the specification. -/
def allFalseInput : InputState :=
  { left := false, right := false, up := false, down := false,
    jump := false, crouch := false, shooting := false, mouseAngle := 0 }

structure PlayerState where
  id : String
  name : String
  x : ℚ
  y : ℚ
  z : ℚ
  velocityX : ℚ
  velocityY : ℚ
  velocityZ : ℚ
  angle : ℚ
  health : ℚ
  maxHealth : ℚ
  fuel : ℚ
  maxFuel : ℚ
  currentArena : ArenaId
  movement : MovementType
  weapon : WeaponType
  isInSpawn : Bool
  isDead : Bool
  kills : ℕ
  deaths : ℕ
  ammo : ℤ
  isReloading : Bool
deriving DecidableEq

structure ProjectileState where
  id : String
  ownerId : String
  x : ℚ
  y : ℚ
  z : ℚ
  angle : ℚ
  speed : ℚ
  damage : ℚ
  weaponKind : WeaponType
  arena : ArenaId
  createdAt : ℚ
deriving DecidableEq

structure BreakableObstacle where
  id : String
  x : ℚ
  y : ℚ
  width : ℚ
  height : ℚ
  health : ℚ
  maxHealth : ℚ
deriving DecidableEq

structure RoomPlayer where
  id : String
  name : String
  ready : Bool
  loadoutReady : Bool
  movement : MovementType
  weapon : WeaponType
deriving DecidableEq

inductive GameEvent where
  | hit (targetId : String) (damage : ℚ) (sourceId : String)
  | kill (killerId : String) (victimId : String)
  | hitscanBeam (sourceId : String) (startX startY endX endY : ℚ)
  | gameEnded (winnerId : String) (scores : List (String × ℕ × ℕ))
deriving DecidableEq

/-- GameRoom state: the mutable fields of the source class.  The
gameLoopRunning flag models whether this.gameLoop is a live interval. -/
structure GameRoom where
  code : String
  hostId : String
  lobbyPlayers : List (String × RoomPlayer)
  players : List (String × PlayerState)
  projectiles : List (String × ProjectileState)
  obstacles : List (String × BreakableObstacle)
  playerInputs : List (String × InputState)
  lastShotTime : List (String × ℚ)
  reloadTimers : List String
  spawnProtectionTimers : List String
  gameStarted : Bool
  inLoadoutPhase : Bool
  countdownStarted : Bool
  gameLoopRunning : Bool
  tick : ℕ
  projectileIdCounter : ℕ
deriving DecidableEq

/-! ### Association-list Map operations -/

def mlookup {α : Type} (m : List (String × α)) (k : String) : Option α :=
  (m.find? (fun e => e.1 = k)).map (·.2)

def mset {α : Type} : List (String × α) → String → α → List (String × α)
  | [], k, v => [(k, v)]
  | e :: rest, k, v => if e.1 = k then (k, v) :: rest else e :: mset rest k v

def mdel {α : Type} (m : List (String × α)) (k : String) : List (String × α) :=
  m.filter (fun e => ¬ e.1 = k)

/-- JavaScript Math.max on finite numbers. -/
def jsMax (a b : ℚ) : ℚ := if a < b then b else a

/-- JavaScript Math.min on finite numbers. -/
def jsMin (a b : ℚ) : ℚ := if b < a then b else a

/-- JavaScript Math.abs on finite numbers. -/
def jsAbs (q : ℚ) : ℚ := if q < 0 then -q else q

/-! ### Pure collision helpers (src/server/index.ts lines 1955-1969) -/

def rectCircleCollision (rect : Rect) (cx cy r : ℚ) : Bool :=
  let nearestX := jsMax rect.x (jsMin cx (rect.x + rect.width))
  let nearestY := jsMax rect.y (jsMin cy (rect.y + rect.height))
  let dx := cx - nearestX
  let dy := cy - nearestY
  decide (dx * dx + dy * dy < r * r)

def pointInRect (px py rx ry rw rh : ℚ) : Bool :=
  decide (rx ≤ px ∧ px ≤ rx + rw ∧ ry ≤ py ∧ py ≤ ry + rh)

/-! ### IEEE-flavoured values for rayRectIntersect

The source sets invDx to Infinity when dx is 0 and then multiplies plain
numbers by it, which can produce NaN (0 * Infinity); comparisons against
NaN are false.  `JVal` captures exactly the value space and operations
this function uses. -/

inductive JVal where
  | nan
  | neginf
  | posinf
  | fin (x : ℚ)
deriving DecidableEq

/-- IEEE less-than: every comparison with NaN is false. -/
def JVal.lt : JVal → JVal → Bool
  | .nan, _ => false
  | _, .nan => false
  | .neginf, .neginf => false
  | .neginf, _ => true
  | .posinf, _ => false
  | .fin _, .neginf => false
  | .fin a, .fin b => decide (a < b)
  | .fin _, .posinf => true

/-- IEEE multiplication restricted to the value space of `JVal`
(0 * Infinity = NaN, sign rules otherwise). -/
def JVal.mul : JVal → JVal → JVal
  | .nan, _ => .nan
  | _, .nan => .nan
  | .fin a, .fin b => .fin (a * b)
  | .fin a, .posinf => if 0 < a then .posinf else if a < 0 then .neginf else .nan
  | .fin a, .neginf => if 0 < a then .neginf else if a < 0 then .posinf else .nan
  | .posinf, .fin a => if 0 < a then .posinf else if a < 0 then .neginf else .nan
  | .neginf, .fin a => if 0 < a then .neginf else if a < 0 then .posinf else .nan
  | .posinf, .posinf => .posinf
  | .posinf, .neginf => .neginf
  | .neginf, .posinf => .neginf
  | .neginf, .neginf => .posinf

/-- JavaScript Math.max: NaN if either argument is NaN. -/
def JVal.jmax (a b : JVal) : JVal :=
  if a = .nan ∨ b = .nan then .nan else if JVal.lt a b then b else a

/-- JavaScript Math.min: NaN if either argument is NaN. -/
def JVal.jmin (a b : JVal) : JVal :=
  if a = .nan ∨ b = .nan then .nan else if JVal.lt b a then b else a

/-- The rational carried by a finite `JVal` (junk 0 otherwise; only ever
read under guards that force finiteness). -/
def JVal.toQ : JVal → ℚ
  | .fin x => x
  | _ => 0

/-- One slab of the slab method: the interval bounds for one axis,
already swapped into (min, max) order exactly as the source does with
its two swap blocks. -/
def slabPair (lo hi o : ℚ) (inv : JVal) : JVal × JVal :=
  let tMin := JVal.mul (.fin (lo - o)) inv
  let tMax := JVal.mul (.fin (hi - o)) inv
  if JVal.lt tMax tMin then (tMax, tMin) else (tMin, tMax)

/-- Ray-AABB intersection, src/server/index.ts lines 1732-1753.  Returns
the distance t along the ray or none.  The source computes each axis slab
with a multiply-by-inverse and a conditional swap; `slabPair` is that
shared shape. -/
def rayRectIntersect (ox oy dx dy : ℚ) (rect : Rect) : Option JVal :=
  let invDx : JVal := if dx = 0 then .posinf else .fin (1 / dx)
  let invDy : JVal := if dy = 0 then .posinf else .fin (1 / dy)
  let sx := slabPair rect.x (rect.x + rect.width) ox invDx
  let sy := slabPair rect.y (rect.y + rect.height) oy invDy
  let tEnter := JVal.jmax sx.1 sy.1
  let tExit := JVal.jmin sx.2 sy.2
  if JVal.lt tExit tEnter then none
  else if JVal.lt tExit (.fin 0) then none
  else if JVal.lt (.fin 0) tEnter then some tEnter else some tExit

/-- JavaScript Math.atan2 modelled through the environment. -/
def jsAtan2 (env : MathEnv) (y x : ℚ) : ℚ := env.atan2 y x

/-! ### Movement (src/server/index.ts lines 1473-1558)

The source method updatePlayer first integrates motion and then handles
shooting; `movePlayer` is the motion part (everything before the
input.shooting check), and `updatePlayer` below composes it with
tryShoot exactly as the source does. -/

/-- Fuel drain on ascent (lines 1510-1514): ascending with fuel burns
fuelDrain (floored at 0); ascending with an empty tank is denied. -/
def fuelDrainStep (stats : MovementStats) (fuel : ℚ) (wantsToAscend : Bool) : ℚ × Bool :=
  if wantsToAscend ∧ 0 < fuel then (jsMax 0 (fuel - stats.fuelDrain), wantsToAscend)
  else if wantsToAscend ∧ fuel ≤ 0 then (fuel, false)
  else (fuel, wantsToAscend)

/-- Fuel regeneration when grounded (lines 1516-1519). -/
def fuelRegenStep (stats : MovementStats) (isGrounded : Prop) [Decidable isGrounded]
    (fa : ℚ × Bool) : ℚ × Bool :=
  if isGrounded ∧ ¬ fa.2 = true then (jsMin stats.fuel (fa.1 + stats.fuelRegen), fa.2) else fa

/-- Fuel handling for jetpacks (lines 1508-1520): new fuel plus the
effective wantsToAscend flag. -/
def fuelStep (stats : MovementStats) (fuel : ℚ) (isGrounded : Prop) [Decidable isGrounded]
    (wantsToAscend : Bool) : ℚ × Bool :=
  if 0 < stats.fuel then fuelRegenStep stats isGrounded (fuelDrainStep stats fuel wantsToAscend)
  else (fuel, wantsToAscend)

/-- Vertical velocity (lines 1522-1536). -/
def vzStep (stats : MovementStats) (movement : MovementType) (ascend descend : Bool)
    (vx vy : ℚ) : ℚ :=
  if ascend then stats.zClimbRate
  else if descend then -stats.zClimbRate
  else if stats.canHover then 0
  else
    let isMoving := 1/2 < jsAbs vx ∨ 1/2 < jsAbs vy
    let fallRate := if movement = MovementType.wings
      then (if isMoving then stats.zFallRate else GRAVITY)
      else stats.zFallRate;
    -fallRate

def movePlayer (env : MathEnv) (p : PlayerState) (input : InputState) : PlayerState :=
  let stats := MOVEMENT_STATS p.movement
  let newAngle := input.mouseAngle
  let targetVelX : ℚ := (if input.left then -stats.speed else 0) +
                        (if input.right then stats.speed else 0)
  let targetVelY : ℚ := (if input.up then -stats.speed else 0) +
                        (if input.down then stats.speed else 0)
  -- normalize diagonal movement (factor = 1 / Math.sqrt 2)
  let target : ℚ × ℚ :=
    if targetVelX ≠ 0 ∧ targetVelY ≠ 0 then
      let factor := 1 / env.sqrt 2
      (targetVelX * factor, targetVelY * factor)
    else (targetVelX, targetVelY)
  -- acceleration, then friction
  let vx := (p.velocityX + (target.1 - p.velocityX) * stats.acceleration) * stats.friction
  let vy := (p.velocityY + (target.2 - p.velocityY) * stats.acceleration) * stats.friction
  -- vertical movement
  let isGrounded := p.z ≤ MIN_Z + 5
  let wantsToDescend := input.crouch
  -- fuel handling for jetpacks
  let fuelAsc := fuelStep stats p.fuel isGrounded input.jump
  let fuel := fuelAsc.1
  let ascend := fuelAsc.2
  let vz := vzStep stats p.movement ascend wantsToDescend vx vy
  -- apply velocity to position, clamp altitude
  let x := p.x + vx
  let y := p.y + vy
  let z := jsMax MIN_Z (jsMin MAX_Z (p.z + vz))
  -- arena boundary collision
  let arena := ARENAS p.currentArena
  let x := jsMax PLAYER_RADIUS (jsMin (arena.width - PLAYER_RADIUS) x)
  let y := jsMax PLAYER_RADIUS (jsMin (arena.height - PLAYER_RADIUS) y)
  -- wall collision: push the player out of each overlapping wall in turn
  let pos := arena.walls.foldl (fun (pos : ℚ × ℚ) wall =>
      if rectCircleCollision wall pos.1 pos.2 PLAYER_RADIUS then
        let centerX := wall.x + wall.width / 2
        let centerY := wall.y + wall.height / 2
        let ang := jsAtan2 env (pos.2 - centerY) (pos.1 - centerX)
        (centerX + env.cos ang * (wall.width / 2 + PLAYER_RADIUS + 1),
         centerY + env.sin ang * (wall.height / 2 + PLAYER_RADIUS + 1))
      else pos) (x, y)
  { p with angle := newAngle, velocityX := vx, velocityY := vy, velocityZ := vz,
           fuel := fuel, x := pos.1, y := pos.2, z := z }

/-! ### End of game (src/server/index.ts lines 1856-1900) -/

def endGame (room : GameRoom) (winnerId : String) : GameRoom × List GameEvent :=
  let scores := room.players.map (fun e => (e.1, e.2.kills, e.2.deaths))
  ({ room with
       gameLoopRunning := false,
       gameStarted := false, inLoadoutPhase := false, countdownStarted := false,
       players := [], projectiles := [], obstacles := [], playerInputs := [],
       lastShotTime := [], reloadTimers := [], spawnProtectionTimers := [],
       lobbyPlayers := room.lobbyPlayers.map
         (fun e => (e.1, { e.2 with ready := false, loadoutReady := false })) },
   [GameEvent.gameEnded winnerId scores])

/-! ### Damage resolution (src/server/index.ts lines 1831-1854)

The source receives the target as an object reference and mutates it; the
embedding identifies the object with its map entry (the source only ever
stores a player under its own id), so the target is passed by id. -/

def damagePlayer (room : GameRoom) (targetId : String) (damage : ℚ) (sourceId : String) :
    GameRoom × List GameEvent :=
  match mlookup room.players targetId with
  | none => (room, [])
  | some player =>
    let newHealth := player.health - damage
    if newHealth ≤ 0 then
      let deadPlayer := { player with health := 0, isDead := true, deaths := player.deaths + 1 }
      let room1 := { room with players := mset room.players targetId deadPlayer }
      match mlookup room1.players sourceId with
      | some source =>
          let source := { source with kills := source.kills + 1 }
          let room2 := { room1 with players := mset room1.players sourceId source }
          if KILL_LIMIT ≤ source.kills then
            let eg := endGame room2 sourceId
            (eg.1, GameEvent.kill sourceId targetId :: eg.2)
          else (room2, [GameEvent.kill sourceId targetId])
      | none => (room1, [GameEvent.kill sourceId targetId])
    else
      ({ room with players := mset room.players targetId { player with health := newHealth } }, [])

/-! ### Reload (src/server/index.ts lines 1616-1629, 1722-1730) -/

/-- startReload: sets the reloading flag and schedules the completion
timer; the wall-clock duration ((reloadTime / TICK_RATE) * 1000 ms) is
abstracted into when the explicit reloadComplete operation occurs. -/
def startReload (room : GameRoom) (pid : String) : GameRoom :=
  match mlookup room.players pid with
  | none => room
  | some player =>
      { room with
          players := mset room.players pid { player with isReloading := true },
          reloadTimers := if pid ∈ room.reloadTimers then room.reloadTimers
                          else room.reloadTimers ++ [pid] }

/-- The setTimeout callback scheduled by startReload.  It only runs if
the timer is still pending (clearTimeout removes the id).  When the
owner is dead the callback returns at once, leaving even the pending
timer entry in place, exactly as the source early-returns before its
reloadTimers.delete call. -/
def reloadComplete (room : GameRoom) (pid : String) : GameRoom :=
  if pid ∈ room.reloadTimers then
    match mlookup room.players pid with
    | none => room
    | some player =>
        if player.isDead then room
        else
          { room with
              players := mset room.players pid
                { player with isReloading := false,
                              ammo := (WEAPON_STATS player.weapon).clipSize },
              reloadTimers := room.reloadTimers.filter (fun i => ¬ i = pid) }
  else room

def manualReload (room : GameRoom) (pid : String) : GameRoom :=
  match mlookup room.players pid with
  | none => room
  | some player =>
    if player.isDead ∨ player.isReloading then room
    else if (WEAPON_STATS player.weapon).clipSize ≤ player.ammo then room
    else startReload room pid

/-! ### Hitscan resolution (src/server/index.ts lines 1631-1720) -/

/-- Discriminant of the ray-circle quadratic for one hitscan target. -/
def rayCircleDisc (ox oy dirX dirY cx cy : ℚ) : ℚ :=
  let dx := cx - ox
  let dy := cy - oy
  let a := dirX * dirX + dirY * dirY
  let b := 2 * (dirX * (-dx) + dirY * (-dy))
  let c := dx * dx + dy * dy - PLAYER_RADIUS * PLAYER_RADIUS
  b * b - 4 * a * c

/-- The near intersection distance t = (-b - sqrt(disc)) / (2a). -/
def rayCircleT (env : MathEnv) (ox oy dirX dirY cx cy : ℚ) : ℚ :=
  let dx := cx - ox
  let dy := cy - oy
  let a := dirX * dirX + dirY * dirY
  let b := 2 * (dirX * (-dx) + dirY * (-dy))
  (-b - env.sqrt (rayCircleDisc ox oy dirX dirY cx cy)) / (2 * a)

/-- One step of the nearest-obstacle scan (used for both solid walls,
with oid = none, and breakable obstacles, with oid = some id). -/
def obsScanStep (ox oy dirX dirY : ℚ) (oid : Option String)
    (acc : ℚ × Option String) (rect : Rect) : ℚ × Option String :=
  match rayRectIntersect ox oy dirX dirY rect with
  | none => acc
  | some t =>
      -- t > 0 together with t < closestObsDist forces t finite,
      -- so toQ reads off its value
      if JVal.lt (.fin 0) t ∧ JVal.lt t (.fin acc.1) then (t.toQ, oid) else acc

/-- One step of the closest-player scan with its eligibility checks. -/
def playerScanStep (env : MathEnv) (shooter : PlayerState) (dirX dirY : ℚ)
    (acc : ℚ × Option String) (entry : String × PlayerState) : ℚ × Option String :=
  let target := entry.2
  if target.id = shooter.id then acc
  else if target.isDead then acc
  else if ¬ target.currentArena = shooter.currentArena then acc
  else if target.isInSpawn then acc
  else if Z_HIT_TOLERANCE < jsAbs (target.z - shooter.z) then acc
  else
    let disc := rayCircleDisc shooter.x shooter.y dirX dirY target.x target.y
    if 0 ≤ disc then
      let t := rayCircleT env shooter.x shooter.y dirX dirY target.x target.y
      if 0 < t ∧ t < acc.1 then (t, some entry.1) else acc
    else acc

def handleHitscan (env : MathEnv) (room : GameRoom) (shooterId : String)
    (angle damage range : ℚ) : GameRoom × List GameEvent :=
  match mlookup room.players shooterId with
  | none => (room, [])
  | some player =>
    let startX := player.x
    let startY := player.y
    let dirX := env.cos angle
    let dirY := env.sin angle
    let arena := ARENAS player.currentArena
    -- solid walls block hitscan completely
    let wallAcc := arena.walls.foldl (obsScanStep startX startY dirX dirY none)
      (range, (none : Option String))
    -- breakable obstacles block hitscan and take damage
    let obsAcc := room.obstacles.foldl
      (fun acc e => obsScanStep startX startY dirX dirY (some e.1) acc
        ⟨e.2.x, e.2.y, e.2.width, e.2.height⟩) wallAcc
    let closestObsDist := obsAcc.1
    let hitBreakableId := obsAcc.2
    -- closest player hit, capped by the nearest obstacle distance
    let playerAcc := room.players.foldl (playerScanStep env player dirX dirY)
      (closestObsDist, (none : Option String))
    let endDist := match playerAcc.2 with
      | some _ => playerAcc.1
      | none => closestObsDist
    let endX := startX + dirX * endDist
    let endY := startY + dirY * endDist
    let beam := GameEvent.hitscanBeam player.id startX startY endX endY
    match playerAcc.2 with
    | some targetId =>
        let de := damagePlayer room targetId damage player.id
        (de.1, beam :: de.2 ++ [GameEvent.hit targetId damage player.id])
    | none =>
        match hitBreakableId with
        | some obsId =>
            match mlookup room.obstacles obsId with
            | some obs =>
                let newHealth := obs.health - damage
                if newHealth ≤ 0 then
                  ({ room with obstacles := mdel room.obstacles obsId }, [beam])
                else
                  let obs2 := { obs with health := newHealth }
                  ({ room with obstacles := mset room.obstacles obsId obs2 }, [beam])
            | none => (room, [beam])
        | none => (room, [beam])

/-! ### Shooting (src/server/index.ts lines 1566-1614) -/

def tryShoot (env : MathEnv) (room : GameRoom) (pid : String) (now rand : ℚ) :
    GameRoom × List GameEvent :=
  match mlookup room.players pid with
  | none => (room, [])
  | some player =>
    if player.ammo ≤ 0 ∨ player.isReloading then (room, [])
    else
      let weaponStats := WEAPON_STATS player.weapon
      let lastShot := (mlookup room.lastShotTime player.id).getD 0
      let cooldown := 1000 / weaponStats.fireRate
      if now - lastShot < cooldown then (room, [])
      else
        let playerProjectileCount :=
          (room.projectiles.filter (fun e => e.2.ownerId = player.id)).length
        if MAX_PROJECTILES_PER_PLAYER ≤ playerProjectileCount then (room, [])
        else
          let room := { room with lastShotTime := mset room.lastShotTime player.id now }
          let player := { player with ammo := player.ammo - 1 }
          let room := { room with players := mset room.players pid player }
          let room := if player.ammo ≤ (0 : ℤ) then startReload room pid else room
          let spread := (rand - 1/2) * weaponStats.spread
          let angle := player.angle + spread
          if weaponStats.isHitscan then
            handleHitscan env room pid angle weaponStats.damage weaponStats.range
          else
            let projectile : ProjectileState :=
              { id := "proj_" ++ toString room.projectileIdCounter,
                ownerId := player.id,
                x := player.x + env.cos angle * (PLAYER_RADIUS + 5),
                y := player.y + env.sin angle * (PLAYER_RADIUS + 5),
                z := player.z,
                angle := angle,
                speed := weaponStats.projectileSpeed,
                damage := weaponStats.damage,
                weaponKind := player.weapon,
                arena := player.currentArena,
                createdAt := now }
            ({ room with
                 projectiles := mset room.projectiles projectile.id projectile,
                 projectileIdCounter := room.projectileIdCounter + 1 }, [])

/-! ### Per-player tick update (src/server/index.ts lines 1455-1564) -/

def updatePlayer (env : MathEnv) (room : GameRoom) (pid : String) (input : InputState)
    (now rand : ℚ) : GameRoom × List GameEvent :=
  match mlookup room.players pid with
  | none => (room, [])
  | some player =>
    let moved := movePlayer env player input
    let room := { room with players := mset room.players pid moved }
    if input.shooting then tryShoot env room pid now rand else (room, [])

/-- Body of the per-player loop of update(): skip dead players, skip
players with no buffered input. -/
def playerTickStep (env : MathEnv) (room : GameRoom) (pid : String) (now rand : ℚ) :
    GameRoom × List GameEvent :=
  match mlookup room.players pid with
  | none => (room, [])
  | some player =>
    if player.isDead then (room, [])
    else
      match mlookup room.playerInputs pid with
      | some input => updatePlayer env room pid input now rand
      | none => (room, [])

def updatePlayersPhase (env : MathEnv) (room : GameRoom) (now : ℚ) (rands : String → ℚ) :
    GameRoom × List GameEvent :=
  (room.players.map Prod.fst).foldl (fun acc pid =>
    let step := playerTickStep env acc.1 pid now (rands pid)
    (step.1, acc.2 ++ step.2)) (room, [])

/-! ### Projectile advancement (src/server/index.ts lines 1755-1798) -/

def projectileStep (env : MathEnv) (now : ℚ) (room : GameRoom) (projId : String) : GameRoom :=
  match mlookup room.projectiles projId with
  | none => room
  | some proj0 =>
    let proj := { proj0 with x := proj0.x + env.cos proj0.angle * proj0.speed,
                             y := proj0.y + env.sin proj0.angle * proj0.speed }
    let room := { room with projectiles := mset room.projectiles projId proj }
    let arena := ARENAS proj.arena
    let age := now - proj.createdAt
    let maxAge : ℚ := 5000
    if proj.x < (0 : ℚ) ∨ arena.width < proj.x ∨ proj.y < (0 : ℚ) ∨ arena.height < proj.y ∨
        maxAge < age then
      { room with projectiles := mdel room.projectiles projId }
    else if arena.walls.any (fun w => pointInRect proj.x proj.y w.x w.y w.width w.height) then
      { room with projectiles := mdel room.projectiles projId }
    else
      match room.obstacles.find? (fun e =>
          pointInRect proj.x proj.y e.2.x e.2.y e.2.width e.2.height) with
      | some e =>
          let newHealth := e.2.health - proj.damage
          let obstacles := if newHealth ≤ 0 then mdel room.obstacles e.1
                           else mset room.obstacles e.1 { e.2 with health := newHealth }
          { room with obstacles := obstacles, projectiles := mdel room.projectiles projId }
      | none => room

def updateProjectiles (env : MathEnv) (room : GameRoom) (now : ℚ) : GameRoom :=
  (room.projectiles.map Prod.fst).foldl (projectileStep env now) room

/-! ### Projectile-player collisions (src/server/index.ts lines 1800-1829) -/

/-- Eligibility and circle-distance test of the inner loop of
checkCollisions, in the order the source checks them. -/
def projectileHitTarget (env : MathEnv) (proj : ProjectileState)
    (entry : String × PlayerState) : Bool :=
  let player := entry.2
  decide (¬ player.id = proj.ownerId ∧ ¬ player.isDead = true ∧
    player.currentArena = proj.arena ∧ ¬ player.isInSpawn = true ∧
    jsAbs (player.z - proj.z) ≤ Z_HIT_TOLERANCE ∧
    env.sqrt ((player.x - proj.x) * (player.x - proj.x) +
              (player.y - proj.y) * (player.y - proj.y)) < PLAYER_RADIUS)

def collideProjectile (env : MathEnv) (room : GameRoom) (projId : String) :
    GameRoom × List GameEvent :=
  match mlookup room.projectiles projId with
  | none => (room, [])
  | some proj =>
    match room.players.find? (projectileHitTarget env proj) with
    | none => (room, [])
    | some entry =>
        let de := damagePlayer room entry.1 proj.damage proj.ownerId
        ({ de.1 with projectiles := mdel de.1.projectiles projId },
         de.2 ++ [GameEvent.hit entry.2.id proj.damage proj.ownerId])

def checkCollisions (env : MathEnv) (room : GameRoom) : GameRoom × List GameEvent :=
  (room.projectiles.map Prod.fst).foldl (fun acc pjId =>
    let step := collideProjectile env acc.1 pjId
    (step.1, acc.2 ++ step.2)) (room, [])

/-! ### The tick (src/server/index.ts lines 1440-1471) -/

def update (env : MathEnv) (room : GameRoom) (now : ℚ) (rands : String → ℚ) :
    GameRoom × List GameEvent :=
  let s1 := updatePlayersPhase env room now rands
  let s2 := updateProjectiles env s1.1 now
  let s3 := checkCollisions env s2
  (s3.1, s1.2 ++ s3.2)

/-- One firing of the setInterval game loop; after clearInterval
(gameLoopRunning = false) the callback no longer runs. -/
def roomTick (env : MathEnv) (room : GameRoom) (now : ℚ) (rands : String → ℚ) :
    GameRoom × List GameEvent :=
  if room.gameLoopRunning then
    let s := update env room now rands
    ({ s.1 with tick := s.1.tick + 1 }, s.2)
  else (room, [])

/-! ### Respawn and spawn protection (src/server/index.ts lines 1902-1941) -/

def grantSpawnProtection (room : GameRoom) (pid : String) : GameRoom :=
  match mlookup room.players pid with
  | none => room
  | some player =>
    { room with
        players := mset room.players pid { player with isInSpawn := true },
        spawnProtectionTimers := if pid ∈ room.spawnProtectionTimers
          then room.spawnProtectionTimers
          else room.spawnProtectionTimers ++ [pid] }

/-- The spawn-protection setTimeout callback; gated on the timer still
pending (grantSpawnProtection and endGame clearTimeout it). -/
def spawnProtectionExpire (room : GameRoom) (pid : String) : GameRoom :=
  if pid ∈ room.spawnProtectionTimers then
    let players :=
      (match mlookup room.players pid with
        | some player => mset room.players pid { player with isInSpawn := false }
        | none => room.players)
    { room with
        players := players,
        spawnProtectionTimers := room.spawnProtectionTimers.filter (fun i => ¬ i = pid) }
  else room

def respawnPlayer (room : GameRoom) (pid : String) : GameRoom :=
  match mlookup room.players pid with
  | none => room
  | some player =>
    if ¬ player.isDead = true then room
    else
      let playerIndex := (room.players.map Prod.fst).indexOf pid
      let arena := ARENAS ArenaId.center
      let spawn := arena.spawnPoints.getD (playerIndex % arena.spawnPoints.length) ⟨0, 0⟩
      let player := { player with
        x := spawn.x, y := spawn.y, z := DEFAULT_Z,
        velocityX := 0, velocityY := 0, velocityZ := 0,
        health := MAX_HEALTH, fuel := player.maxFuel,
        currentArena := ArenaId.center, isDead := false,
        ammo := (WEAPON_STATS player.weapon).clipSize, isReloading := false }
      let room := { room with
        players := mset room.players pid player,
        reloadTimers := room.reloadTimers.filter (fun i => ¬ i = pid) }
      grantSpawnProtection room pid

/-! ### Buffered input (src/server/index.ts lines 1436-1438) -/

def handleInput (room : GameRoom) (pid : String) (input : InputState) : GameRoom :=
  { room with playerInputs := mset room.playerInputs pid input }

/-! ### Operation sequences on a room

The externally triggerable mutations of an active room: buffered input,
a game-loop tick, a manual reload request, a reload timer firing, a
respawn request, a spawn-protection timer firing. -/

inductive RoomOp where
  | inputOp (pid : String) (input : InputState)
  | tickOp (now : ℚ) (rands : String → ℚ)
  | manualReloadOp (pid : String)
  | reloadTimerFires (pid : String)
  | respawnOp (pid : String)
  | spawnProtectionTimerFires (pid : String)

def applyOp (env : MathEnv) (room : GameRoom) : RoomOp → GameRoom
  | .inputOp pid input => handleInput room pid input
  | .tickOp now rands => (roomTick env room now rands).1
  | .manualReloadOp pid => manualReload room pid
  | .reloadTimerFires pid => reloadComplete room pid
  | .respawnOp pid => respawnPlayer room pid
  | .spawnProtectionTimerFires pid => spawnProtectionExpire room pid

def applyOps (env : MathEnv) (room : GameRoom) (ops : List RoomOp) : GameRoom :=
  ops.foldl (applyOp env) room

/-! ### Concrete fixtures for closed evaluations -/

/-- A baseline in-match player as initializePlayers creates one (wings,
rocket, spawn altitude, full resources). -/
def basePlayer (i : String) : PlayerState :=
  { id := i, name := i, x := 100, y := 100, z := DEFAULT_Z,
    velocityX := 0, velocityY := 0, velocityZ := 0, angle := 0,
    health := MAX_HEALTH, maxHealth := MAX_HEALTH, fuel := 0, maxFuel := 0,
    currentArena := ArenaId.center, movement := MovementType.wings,
    weapon := WeaponType.rocket, isInSpawn := false, isDead := false,
    kills := 0, deaths := 0, ammo := 4, isReloading := false }

/-- A baseline active room with two players and no other entities. -/
def baseRoom : GameRoom :=
  { code := "ROOM", hostId := "a", lobbyPlayers := [],
    players := [("a", basePlayer "a"), ("b", basePlayer "b")],
    projectiles := [], obstacles := [], playerInputs := [],
    lastShotTime := [], reloadTimers := [], spawnProtectionTimers := [],
    gameStarted := true, inLoadoutPhase := false, countdownStarted := true,
    gameLoopRunning := true, tick := 0, projectileIdCounter := 1 }

/-- A rocket projectile owned by player a, sitting at (100, 200, 20). -/
def baseProjectile : ProjectileState :=
  { id := "proj_0", ownerId := "a", x := 100, y := 200, z := DEFAULT_Z,
    angle := 0, speed := 12, damage := 50, weaponKind := WeaponType.rocket,
    arena := ArenaId.center, createdAt := 0 }

/-- Spawn-protected shooter a whose live rocket sits exactly at player
b's centre. -/
def roomProtShooter : GameRoom :=
  { baseRoom with
      players := [("a", { basePlayer "a" with isInSpawn := true }),
                  ("b", { basePlayer "b" with y := 200 })],
      projectiles := [("proj_0", baseProjectile)] }

/-- Dead owner a whose live machine-gun round sits exactly at the centre
of player b, who has 8 health left. -/
def roomDeadOwner : GameRoom :=
  { baseRoom with
      players := [("a", { basePlayer "a" with isDead := true }),
                  ("b", { basePlayer "b" with y := 200, health := 8 })],
      projectiles := [("proj_0", { baseProjectile with damage := 8 })] }

/-- Player on its match point (one kill below the limit) and a victim on
5 health. -/
def roomMatchPoint : GameRoom :=
  { baseRoom with
      players := [("a", { basePlayer "a" with kills := 10 }),
                  ("b", { basePlayer "b" with y := 200, health := 5 })] }

/-- Fire-jetpack player standing on the ground with half fuel. -/
def jetpackPlayer : PlayerState :=
  { basePlayer "a" with
      movement := MovementType.fireJetpack, z := 0, fuel := 50, maxFuel := 100 }

/-- A room in which player a owns exactly the projectile cap. -/
def roomAtCap : GameRoom :=
  { baseRoom with
      projectiles := (List.range MAX_PROJECTILES_PER_PLAYER).map
        (fun i => ("proj_" ++ toString i, { baseProjectile with id := "proj_" ++ toString i })) }

/-- Input that only descends. -/
def crouchInput : InputState := { allFalseInput with crouch := true }

/-- Input that only ascends. -/
def jumpInput : InputState := { allFalseInput with jump := true }

/-! ### Lemmas: association-list operations -/

theorem mlookup_cons {α : Type} (e : String × α) (m : List (String × α)) (k : String) :
    mlookup (e :: m) k = if e.1 = k then some e.2 else mlookup m k := by
  by_cases h : e.1 = k
  · simp [mlookup, List.find?_cons_of_pos, h]
  · simp [mlookup, List.find?_cons_of_neg, h]

theorem mlookup_mem {α : Type} {m : List (String × α)} {k : String} {v : α}
    (h : mlookup m k = some v) : ∃ e, e ∈ m ∧ e.1 = k ∧ e.2 = v := by
  induction m with
  | nil => simp [mlookup] at h
  | cons a rest ih =>
      rw [mlookup_cons] at h
      by_cases ha : a.1 = k
      · rw [if_pos ha] at h
        exact ⟨a, List.mem_cons_self a rest, ha, by injection h⟩
      · rw [if_neg ha] at h
        obtain ⟨e, he, h1, h2⟩ := ih h
        exact ⟨e, List.mem_cons_of_mem a he, h1, h2⟩

theorem mem_mset {α : Type} {e : String × α} {m : List (String × α)} {k : String} {v : α}
    (h : e ∈ mset m k v) : e = (k, v) ∨ e ∈ m := by
  induction m with
  | nil => simp [mset] at h; exact Or.inl h
  | cons a rest ih =>
      simp only [mset] at h
      split at h
      · rcases List.mem_cons.mp h with h1 | h1
        · exact Or.inl h1
        · exact Or.inr (List.mem_cons_of_mem a h1)
      · rcases List.mem_cons.mp h with h1 | h1
        · exact Or.inr (h1 ▸ List.mem_cons_self a rest)
        · rcases ih h1 with h2 | h2
          · exact Or.inl h2
          · exact Or.inr (List.mem_cons_of_mem a h2)

theorem mem_mdel {α : Type} {e : String × α} {m : List (String × α)} {k : String}
    (h : e ∈ mdel m k) : e ∈ m :=
  List.mem_of_mem_filter h

theorem mlookup_mset_self {α : Type} (m : List (String × α)) (k : String) (v : α) :
    mlookup (mset m k v) k = some v := by
  induction m with
  | nil => simp [mset, mlookup]
  | cons a rest ih =>
      simp only [mset]
      split
      · rw [mlookup_cons]; simp
      · rw [mlookup_cons]
        next h => rw [if_neg h]; exact ih

theorem mlookup_mset_ne {α : Type} (m : List (String × α)) (k k' : String) (v : α)
    (h : ¬ k' = k) : mlookup (mset m k v) k' = mlookup m k' := by
  induction m with
  | nil =>
      simp only [mset, mlookup_cons]
      rw [if_neg (fun hk => h hk.symm)]
  | cons a rest ih =>
      simp only [mset]
      split
      · next ha =>
          rw [mlookup_cons, mlookup_cons, if_neg (fun hk => h hk.symm), ha,
            if_neg (fun hk => h hk.symm)]
      · rw [mlookup_cons, mlookup_cons, ih]

theorem mlookup_mdel_self {α : Type} (m : List (String × α)) (k : String) :
    mlookup (mdel m k) k = none := by
  induction m with
  | nil => rfl
  | cons a rest ih =>
      by_cases ha : a.1 = k
      · simp only [mdel, List.filter_cons]
        rw [if_neg (by simp [ha])]
        exact ih
      · simp only [mdel, List.filter_cons]
        rw [if_pos (by simp [ha])]
        rw [mlookup_cons, if_neg ha]
        exact ih

theorem mlookup_mdel_ne {α : Type} (m : List (String × α)) (k k' : String)
    (h : ¬ k' = k) : mlookup (mdel m k) k' = mlookup m k' := by
  induction m with
  | nil => rfl
  | cons a rest ih =>
      by_cases ha : a.1 = k
      · simp only [mdel, List.filter_cons]
        rw [if_neg (by simp [ha])]
        rw [mlookup_cons, if_neg (by rw [ha]; exact fun hk => h hk.symm)]
        exact ih
      · simp only [mdel, List.filter_cons]
        rw [if_pos (by simp [ha])]
        rw [mlookup_cons, mlookup_cons]
        simp only [mdel] at ih
        rw [ih]

/-! ### Lemmas: balance data facts -/

theorem movement_stats_nonneg (m : MovementType) :
    0 ≤ (MOVEMENT_STATS m).fuel ∧ 0 ≤ (MOVEMENT_STATS m).fuelDrain ∧
    0 ≤ (MOVEMENT_STATS m).fuelRegen ∧ 0 ≤ (MOVEMENT_STATS m).zClimbRate ∧
    0 ≤ (MOVEMENT_STATS m).zFallRate := by
  cases m <;> refine ⟨?_, ?_, ?_, ?_, ?_⟩ <;> norm_num [MOVEMENT_STATS]

theorem weapon_stats_damage_nonneg (w : WeaponType) : 0 ≤ (WEAPON_STATS w).damage := by
  cases w <;> norm_num [WEAPON_STATS]

theorem weapon_stats_clip_nonneg (w : WeaponType) : 0 ≤ (WEAPON_STATS w).clipSize := by
  cases w <;> norm_num [WEAPON_STATS]

/-! ### The bounds invariant of the data model -/

/-- The per-Combatant bounds of the specification, together with the two
structural facts (maxHealth is the constant, maxFuel matches the
archetype) that the source maintains and the bounds proofs rest on. -/
def PB (p : PlayerState) : Prop :=
  0 ≤ p.z ∧ p.z ≤ MAX_Z ∧
  0 ≤ p.health ∧ p.health ≤ p.maxHealth ∧
  0 ≤ p.ammo ∧ p.ammo ≤ (WEAPON_STATS p.weapon).clipSize ∧
  0 ≤ p.fuel ∧ p.fuel ≤ p.maxFuel ∧
  p.maxHealth = MAX_HEALTH ∧ p.maxFuel = (MOVEMENT_STATS p.movement).fuel

instance (p : PlayerState) : Decidable (PB p) := by unfold PB; infer_instance

/-- Room-level bounds invariant: every live player satisfies PB and
every live projectile carries non-negative damage. -/
def InvB (room : GameRoom) : Prop :=
  (∀ e ∈ room.players, PB e.2) ∧ (∀ e ∈ room.projectiles, 0 ≤ e.2.damage)

instance (room : GameRoom) : Decidable (InvB room) := by unfold InvB; infer_instance

/-! ### Lemmas: movePlayer -/

theorem movePlayer_fields (env : MathEnv) (p : PlayerState) (input : InputState) :
    (movePlayer env p input).health = p.health ∧
    (movePlayer env p input).maxHealth = p.maxHealth ∧
    (movePlayer env p input).ammo = p.ammo ∧
    (movePlayer env p input).weapon = p.weapon ∧
    (movePlayer env p input).movement = p.movement ∧
    (movePlayer env p input).maxFuel = p.maxFuel ∧
    (movePlayer env p input).isDead = p.isDead ∧
    (movePlayer env p input).isInSpawn = p.isInSpawn ∧
    (movePlayer env p input).isReloading = p.isReloading ∧
    (movePlayer env p input).kills = p.kills ∧
    (movePlayer env p input).deaths = p.deaths ∧
    (movePlayer env p input).id = p.id ∧
    (movePlayer env p input).currentArena = p.currentArena :=
  ⟨rfl, rfl, rfl, rfl, rfl, rfl, rfl, rfl, rfl, rfl, rfl, rfl, rfl⟩

theorem movePlayer_fuel_eq (env : MathEnv) (p : PlayerState) (input : InputState) :
    (movePlayer env p input).fuel =
      (fuelStep (MOVEMENT_STATS p.movement) p.fuel (p.z ≤ MIN_Z + 5) input.jump).1 := rfl

theorem movePlayer_vz_eq (env : MathEnv) (p : PlayerState) (input : InputState) :
    (movePlayer env p input).velocityZ =
      vzStep (MOVEMENT_STATS p.movement) p.movement
        (fuelStep (MOVEMENT_STATS p.movement) p.fuel (p.z ≤ MIN_Z + 5) input.jump).2
        input.crouch (movePlayer env p input).velocityX (movePlayer env p input).velocityY := rfl

theorem movePlayer_z_eq (env : MathEnv) (p : PlayerState) (input : InputState) :
    (movePlayer env p input).z =
      jsMax MIN_Z (jsMin MAX_Z (p.z + (movePlayer env p input).velocityZ)) := rfl

theorem le_jsMax_left (a b : ℚ) : a ≤ jsMax a b := by
  unfold jsMax
  split_ifs with h
  · exact le_of_lt h
  · exact le_refl a

theorem jsMax_le (a b c : ℚ) (h1 : a ≤ c) (h2 : b ≤ c) : jsMax a b ≤ c := by
  unfold jsMax
  split_ifs <;> assumption

theorem jsMin_le_left (a b : ℚ) : jsMin a b ≤ a := by
  unfold jsMin
  split_ifs with h
  · exact le_of_lt h
  · exact le_refl a

theorem le_jsMin (a b c : ℚ) (h1 : c ≤ a) (h2 : c ≤ b) : c ≤ jsMin a b := by
  unfold jsMin
  split_ifs <;> assumption

theorem movePlayer_z_bounds (env : MathEnv) (p : PlayerState) (input : InputState) :
    0 ≤ (movePlayer env p input).z ∧ (movePlayer env p input).z ≤ MAX_Z := by
  rw [movePlayer_z_eq]
  constructor
  · have h : MIN_Z ≤ jsMax MIN_Z (jsMin MAX_Z (p.z + (movePlayer env p input).velocityZ)) :=
      le_jsMax_left _ _
    calc (0 : ℚ) = MIN_Z := by norm_num [MIN_Z]
    _ ≤ _ := h
  · apply jsMax_le
    · norm_num [MIN_Z, MAX_Z]
    · exact jsMin_le_left _ _

theorem fuelDrainStep_bounds (stats : MovementStats) (fuel : ℚ) (w : Bool)
    (h0 : 0 ≤ fuel) (hd : 0 ≤ stats.fuelDrain) :
    0 ≤ (fuelDrainStep stats fuel w).1 ∧ (fuelDrainStep stats fuel w).1 ≤ fuel := by
  unfold fuelDrainStep
  split_ifs with h1 h2
  · constructor
    · exact le_jsMax_left _ _
    · apply jsMax_le _ _ _ h0
      linarith
  · exact ⟨h0, le_refl _⟩
  · exact ⟨h0, le_refl _⟩

theorem fuelStep_bounds (stats : MovementStats) (fuel : ℚ) (g : Prop) [Decidable g] (w : Bool)
    (h0 : 0 ≤ fuel) (h1 : fuel ≤ stats.fuel)
    (hd : 0 ≤ stats.fuelDrain) (hr : 0 ≤ stats.fuelRegen) :
    0 ≤ (fuelStep stats fuel g w).1 ∧ (fuelStep stats fuel g w).1 ≤ stats.fuel := by
  unfold fuelStep
  split_ifs with hjet
  · obtain ⟨hda, hdb⟩ := fuelDrainStep_bounds stats fuel w h0 hd
    unfold fuelRegenStep
    split_ifs with hg
    · constructor
      · apply le_jsMin _ _ _ (le_of_lt hjet)
        linarith
      · exact jsMin_le_left _ _
    · exact ⟨hda, le_trans hdb h1⟩
  · exact ⟨h0, h1⟩

theorem movePlayer_PB (env : MathEnv) (p : PlayerState) (input : InputState)
    (h : PB p) : PB (movePlayer env p input) := by
  obtain ⟨hz0, hz1, hh0, hh1, ha0, ha1, hf0, hf1, hmh, hmf⟩ := h
  obtain ⟨hzlo, hzhi⟩ := movePlayer_z_bounds env p input
  obtain ⟨e1, e2, e3, e4, e5, e6, e7, e8, e9, e10, e11, e12, e13⟩ := movePlayer_fields env p input
  obtain ⟨hsf, hsd, hsr, _, _⟩ := movement_stats_nonneg p.movement
  obtain ⟨hflo, hfhi⟩ := fuelStep_bounds (MOVEMENT_STATS p.movement) p.fuel
    (p.z ≤ MIN_Z + 5) input.jump hf0 (hmf ▸ hf1) hsd hsr
  refine ⟨hzlo, hzhi, ?_, ?_, ?_, ?_, ?_, ?_, ?_, ?_⟩
  · rw [e1]; exact hh0
  · rw [e1, e2]; exact hh1
  · rw [e3]; exact ha0
  · rw [e3, e4]; exact ha1
  · rw [movePlayer_fuel_eq]; exact hflo
  · rw [movePlayer_fuel_eq, e6, hmf]; exact hfhi
  · rw [e2]; exact hmh
  · rw [e6, e5, hmf]

/-! ### Lemmas: InvB is preserved by every room operation -/

theorem foldl_preserves {α β : Type} (P : β → Prop) (f : β → α → β)
    (hf : ∀ b a, P b → P (f b a)) : ∀ (l : List α) (b : β), P b → P (l.foldl f b) := by
  intro l
  induction l with
  | nil => intro b hb; exact hb
  | cons a rest ih => intro b hb; exact ih _ (hf b a hb)

theorem PB_dead (p : PlayerState) (h : PB p) :
    PB { p with health := 0, isDead := true, deaths := p.deaths + 1 } := by
  obtain ⟨z0, z1, h0, h1, a0, a1, f0, f1, mh, mf⟩ := h
  exact ⟨z0, z1, le_refl 0, h0.trans h1, a0, a1, f0, f1, mh, mf⟩

theorem PB_kill (p : PlayerState) (h : PB p) : PB { p with kills := p.kills + 1 } := h

theorem PB_health_sub (p : PlayerState) (d : ℚ) (h : PB p) (hd : 0 ≤ d)
    (hpos : ¬ p.health - d ≤ 0) : PB { p with health := p.health - d } := by
  obtain ⟨z0, z1, h0, h1, a0, a1, f0, f1, mh, mf⟩ := h
  refine ⟨z0, z1, ?_, ?_, a0, a1, f0, f1, mh, mf⟩
  · show (0 : ℚ) ≤ p.health - d
    linarith
  · show p.health - d ≤ p.maxHealth
    linarith

theorem InvB_endGame (room : GameRoom) (wid : String) : InvB (endGame room wid).1 := by
  constructor <;> intro e he <;> exact absurd he (List.not_mem_nil e)

theorem InvB_set_player {room : GameRoom} (h : InvB room) (k : String) {p : PlayerState}
    (hp : PB p) : InvB { room with players := mset room.players k p } := by
  refine ⟨?_, h.2⟩
  intro e he
  rcases mem_mset he with rfl | he2
  · exact hp
  · exact h.1 e he2

theorem InvB_lookup_PB {room : GameRoom} (h : InvB room) {k : String} {p : PlayerState}
    (hl : mlookup room.players k = some p) : PB p := by
  obtain ⟨e, he, _, hev⟩ := mlookup_mem hl
  exact hev ▸ h.1 e he

theorem InvB_lookup_damage {room : GameRoom} (h : InvB room) {k : String}
    {pr : ProjectileState} (hl : mlookup room.projectiles k = some pr) : 0 ≤ pr.damage := by
  obtain ⟨e, he, _, hev⟩ := mlookup_mem hl
  exact hev ▸ h.2 e he

theorem health_sub_eq (p : PlayerState) (d : ℚ) :
    ({ p with health := p.health - d } : PlayerState) = { p with health := p.health - d } := rfl

theorem InvB_damagePlayer (room : GameRoom) (tid : String) (d : ℚ) (sid : String)
    (h : InvB room) (hd : 0 ≤ d) : InvB (damagePlayer room tid d sid).1 := by
  unfold damagePlayer
  split
  · exact h
  · next player hl =>
      have hp : PB player := InvB_lookup_PB h hl
      simp only []
      split_ifs with hdead
      · have hp1 : PB { player with health := 0, isDead := true, deaths := player.deaths + 1 } :=
          PB_dead player hp
        have h1 : InvB { room with
            players := mset room.players tid
              { player with health := 0, isDead := true, deaths := player.deaths + 1 } } :=
          InvB_set_player h tid hp1
        split
        · next source hs =>
            have hps : PB source := InvB_lookup_PB h1 hs
            have h2 : InvB { room with
                players := mset (mset room.players tid
                    { player with health := 0, isDead := true, deaths := player.deaths + 1 }) sid
                  { source with kills := source.kills + 1 } } :=
              InvB_set_player h1 sid (PB_kill source hps)
            split_ifs with hwin
            · dsimp only
              exact InvB_endGame _ _
            · exact h2
        · next hs => exact h1
      · have hp2 : PB { player with health := player.health - d } :=
          PB_health_sub player d hp hd hdead
        exact InvB_set_player h tid hp2

theorem InvB_startReload (room : GameRoom) (pid : String) (h : InvB room) :
    InvB (startReload room pid) := by
  unfold startReload
  split
  · exact h
  · next player hl =>
      have hp : PB player := InvB_lookup_PB h hl
      refine ⟨?_, h.2⟩
      intro e he
      rcases mem_mset he with rfl | he2
      · exact hp
      · exact h.1 e he2

theorem InvB_reloadComplete (room : GameRoom) (pid : String) (h : InvB room) :
    InvB (reloadComplete room pid) := by
  unfold reloadComplete
  split_ifs with ht
  · split
    · exact h
    · next player hl =>
        have hp : PB player := InvB_lookup_PB h hl
        split_ifs with hdead
        · exact h
        · obtain ⟨z0, z1, h0, h1, a0, a1, f0, f1, mh, mf⟩ := hp
          refine ⟨?_, h.2⟩
          intro e he
          rcases mem_mset he with rfl | he2
          · exact ⟨z0, z1, h0, h1, weapon_stats_clip_nonneg player.weapon, le_refl _,
              f0, f1, mh, mf⟩
          · exact h.1 e he2
  · exact h

theorem InvB_grantSpawnProtection (room : GameRoom) (pid : String) (h : InvB room) :
    InvB (grantSpawnProtection room pid) := by
  unfold grantSpawnProtection
  split
  · exact h
  · next player hl =>
      have hp : PB player := InvB_lookup_PB h hl
      refine ⟨?_, h.2⟩
      intro e he
      rcases mem_mset he with rfl | he2
      · exact hp
      · exact h.1 e he2

theorem InvB_spawnProtectionExpire (room : GameRoom) (pid : String) (h : InvB room) :
    InvB (spawnProtectionExpire room pid) := by
  unfold spawnProtectionExpire
  split_ifs with ht
  · split
    · next player hl =>
        have hp : PB player := InvB_lookup_PB h hl
        refine ⟨?_, h.2⟩
        intro e he
        rcases mem_mset he with rfl | he2
        · exact hp
        · exact h.1 e he2
    · next hl => exact ⟨h.1, h.2⟩
  · exact h

theorem InvB_respawnPlayer (room : GameRoom) (pid : String) (h : InvB room) :
    InvB (respawnPlayer room pid) := by
  unfold respawnPlayer
  split
  · exact h
  · next player hl =>
      have hp : PB player := InvB_lookup_PB h hl
      split_ifs with hdead
      · obtain ⟨z0, z1, h0, h1, a0, a1, f0, f1, mh, mf⟩ := hp
        dsimp only
        apply InvB_grantSpawnProtection
        refine ⟨?_, h.2⟩
        intro e he
        rcases mem_mset he with rfl | he2
        · refine ⟨?_, ?_, ?_, ?_, weapon_stats_clip_nonneg player.weapon, le_refl _,
            f0.trans f1, le_refl _, mh, mf⟩
          · norm_num [DEFAULT_Z]
          · norm_num [DEFAULT_Z, MAX_Z]
          · norm_num [MAX_HEALTH]
          · show MAX_HEALTH ≤ player.maxHealth
            rw [mh]
        · exact h.1 e he2
      · exact h

theorem InvB_manualReload (room : GameRoom) (pid : String) (h : InvB room) :
    InvB (manualReload room pid) := by
  unfold manualReload
  split
  · exact h
  · split_ifs with h1 h2
    · exact h
    · exact h
    · exact InvB_startReload room pid h

theorem InvB_handleHitscan (env : MathEnv) (room : GameRoom) (sid : String)
    (angle damage range : ℚ) (h : InvB room) (hd : 0 ≤ damage) :
    InvB (handleHitscan env room sid angle damage range).1 := by
  unfold handleHitscan
  split
  · exact h
  · next player hl =>
      simp only []
      split
      · next tid heq =>
          exact InvB_damagePlayer room tid damage player.id h hd
      · split
        · next obsId heq =>
            split
            · next obs hobs =>
                simp only []
                split_ifs with hbroke
                · exact ⟨h.1, h.2⟩
                · exact ⟨h.1, h.2⟩
            · exact h
        · exact h

theorem InvB_tryShoot (env : MathEnv) (room : GameRoom) (pid : String) (now rand : ℚ)
    (h : InvB room) : InvB (tryShoot env room pid now rand).1 := by
  unfold tryShoot
  split
  · exact h
  · next player hl =>
      have hp : PB player := InvB_lookup_PB h hl
      simp only []
      have hp2 : ¬ (player.ammo ≤ 0 ∨ player.isReloading = true) → PB { player with ammo := player.ammo - 1 } := by
        intro hguard
        have hammo : (0 : ℤ) < player.ammo := lt_of_not_le (not_or.mp hguard).1
        obtain ⟨z0, z1, h0, h1, a0, a1, f0, f1, mh, mf⟩ := hp
        refine ⟨z0, z1, h0, h1, ?_, ?_, f0, f1, mh, mf⟩
        · show (0 : ℤ) ≤ player.ammo - 1
          omega
        · show player.ammo - 1 ≤ (WEAPON_STATS player.weapon).clipSize
          omega
      have h3 : ¬ (player.ammo ≤ 0 ∨ player.isReloading = true) → InvB { room with
          lastShotTime := mset room.lastShotTime player.id now,
          players := mset room.players pid { player with ammo := player.ammo - 1 } } := by
        intro hguard
        refine ⟨?_, h.2⟩
        intro e he
        rcases mem_mset he with rfl | he2
        · exact hp2 hguard
        · exact h.1 e he2
      split_ifs with hg hcool hcap hc2 hc1 hc1x
      · exact h
      · exact h
      · exact h
      · exact InvB_handleHitscan env _ pid _ _ _ (InvB_startReload _ pid (h3 hg))
          (weapon_stats_damage_nonneg player.weapon)
      · exact InvB_handleHitscan env _ pid _ _ _ (h3 hg)
          (weapon_stats_damage_nonneg player.weapon)
      · refine ⟨(InvB_startReload _ pid (h3 hg)).1, ?_⟩
        intro e he
        rcases mem_mset he with rfl | he2
        · exact weapon_stats_damage_nonneg player.weapon
        · exact (InvB_startReload _ pid (h3 hg)).2 e he2
      · refine ⟨(h3 hg).1, ?_⟩
        intro e he
        rcases mem_mset he with rfl | he2
        · exact weapon_stats_damage_nonneg player.weapon
        · exact (h3 hg).2 e he2

theorem InvB_updatePlayer (env : MathEnv) (room : GameRoom) (pid : String) (input : InputState)
    (now rand : ℚ) (h : InvB room) : InvB (updatePlayer env room pid input now rand).1 := by
  unfold updatePlayer
  split
  · exact h
  · next player hl =>
      simp only []
      have h2 : InvB { room with players := mset room.players pid (movePlayer env player input) } := by
        refine ⟨?_, h.2⟩
        intro e he
        rcases mem_mset he with rfl | he2
        · exact movePlayer_PB env player input (InvB_lookup_PB h hl)
        · exact h.1 e he2
      split_ifs with hs
      · exact InvB_tryShoot env _ pid now rand h2
      · exact h2

theorem InvB_playerTickStep (env : MathEnv) (room : GameRoom) (pid : String) (now rand : ℚ)
    (h : InvB room) : InvB (playerTickStep env room pid now rand).1 := by
  unfold playerTickStep
  split
  · exact h
  · next player hl =>
      split_ifs with hdead
      · exact h
      · split
        · next input hin => exact InvB_updatePlayer env room pid input now rand h
        · exact h

theorem InvB_updatePlayersPhase (env : MathEnv) (room : GameRoom) (now : ℚ)
    (rands : String → ℚ) (h : InvB room) : InvB (updatePlayersPhase env room now rands).1 := by
  unfold updatePlayersPhase
  apply foldl_preserves (fun acc : GameRoom × List GameEvent => InvB acc.1)
  · intro b a hb
    exact InvB_playerTickStep env b.1 a now (rands a) hb
  · exact h

theorem InvB_projectileStep (env : MathEnv) (now : ℚ) (room : GameRoom) (projId : String)
    (h : InvB room) : InvB (projectileStep env now room projId) := by
  unfold projectileStep
  split
  · exact h
  · next proj0 hl =>
      have hd : 0 ≤ proj0.damage := InvB_lookup_damage h hl
      simp only []
      have hmem : ∀ e ∈ mset room.projectiles projId
          { proj0 with x := proj0.x + env.cos proj0.angle * proj0.speed,
                       y := proj0.y + env.sin proj0.angle * proj0.speed }, 0 ≤ e.2.damage := by
        intro e he
        rcases mem_mset he with rfl | he2
        · exact hd
        · exact h.2 e he2
      split_ifs with hout hwall
      · exact ⟨h.1, fun e he => hmem e (mem_mdel he)⟩
      · exact ⟨h.1, fun e he => hmem e (mem_mdel he)⟩
      · split
        · next e2 hfind =>
            exact ⟨h.1, fun e he => hmem e (mem_mdel he)⟩
        · exact ⟨h.1, hmem⟩

theorem InvB_updateProjectiles (env : MathEnv) (room : GameRoom) (now : ℚ) (h : InvB room) :
    InvB (updateProjectiles env room now) := by
  unfold updateProjectiles
  apply foldl_preserves (fun r : GameRoom => InvB r)
  · intro b a hb
    exact InvB_projectileStep env now b a hb
  · exact h

theorem InvB_collideProjectile (env : MathEnv) (room : GameRoom) (projId : String)
    (h : InvB room) : InvB (collideProjectile env room projId).1 := by
  unfold collideProjectile
  split
  · exact h
  · next proj hl =>
      have hd : 0 ≤ proj.damage := InvB_lookup_damage h hl
      split
      · exact h
      · next entry hfind =>
          simp only []
          have h2 : InvB (damagePlayer room entry.1 proj.damage proj.ownerId).1 :=
            InvB_damagePlayer room entry.1 proj.damage proj.ownerId h hd
          exact ⟨h2.1, fun e he => h2.2 e (mem_mdel he)⟩

theorem InvB_checkCollisions (env : MathEnv) (room : GameRoom) (h : InvB room) :
    InvB (checkCollisions env room).1 := by
  unfold checkCollisions
  apply foldl_preserves (fun acc : GameRoom × List GameEvent => InvB acc.1)
  · intro b a hb
    exact InvB_collideProjectile env b.1 a hb
  · exact h

theorem InvB_update (env : MathEnv) (room : GameRoom) (now : ℚ) (rands : String → ℚ)
    (h : InvB room) : InvB (update env room now rands).1 := by
  unfold update
  simp only []
  exact InvB_checkCollisions env _
    (InvB_updateProjectiles env _ now (InvB_updatePlayersPhase env room now rands h))

theorem InvB_roomTick (env : MathEnv) (room : GameRoom) (now : ℚ) (rands : String → ℚ)
    (h : InvB room) : InvB (roomTick env room now rands).1 := by
  unfold roomTick
  split_ifs with hrun
  · have hu := InvB_update env room now rands h
    exact ⟨hu.1, hu.2⟩
  · exact h

theorem InvB_handleInput (room : GameRoom) (pid : String) (input : InputState)
    (h : InvB room) : InvB (handleInput room pid input) :=
  ⟨h.1, h.2⟩

theorem InvB_applyOp (env : MathEnv) (room : GameRoom) (op : RoomOp) (h : InvB room) :
    InvB (applyOp env room op) := by
  cases op with
  | inputOp pid input => exact InvB_handleInput room pid input h
  | tickOp now rands => exact InvB_roomTick env room now rands h
  | manualReloadOp pid => exact InvB_manualReload room pid h
  | reloadTimerFires pid => exact InvB_reloadComplete room pid h
  | respawnOp pid => exact InvB_respawnPlayer room pid h
  | spawnProtectionTimerFires pid => exact InvB_spawnProtectionExpire room pid h

theorem InvB_applyOps (env : MathEnv) (room : GameRoom) (ops : List RoomOp) (h : InvB room) :
    InvB (applyOps env room ops) := by
  unfold applyOps
  apply foldl_preserves InvB
  · intro b a hb
    exact InvB_applyOp env b a hb
  · exact h

/-! ### Lemmas: the per-player projectile cap -/

/-- Number of live projectiles owned by a player; definitionally the
expression tryShoot computes for its cap check. -/
def countOwned (projs : List (String × ProjectileState)) (pid : String) : ℕ :=
  (projs.filter (fun e => e.2.ownerId = pid)).length

/-- Cap invariant: no player owns more than the configured maximum. -/
def InvC (room : GameRoom) : Prop :=
  ∀ pid, countOwned room.projectiles pid ≤ MAX_PROJECTILES_PER_PLAYER

theorem countOwned_nil (pid : String) : countOwned [] pid = 0 := rfl

theorem countOwned_cons (a : String × ProjectileState) (m : List (String × ProjectileState))
    (pid : String) :
    countOwned (a :: m) pid = (if a.2.ownerId = pid then 1 else 0) + countOwned m pid := by
  by_cases h : a.2.ownerId = pid <;>
    simp [countOwned, List.filter_cons, h, Nat.add_comm]

theorem countOwned_mdel_le (m : List (String × ProjectileState)) (k pid : String) :
    countOwned (mdel m k) pid ≤ countOwned m pid := by
  induction m with
  | nil => exact le_refl _
  | cons a rest ih =>
      by_cases hk : a.1 = k
      · have : mdel (a :: rest) k = mdel rest k := by
          simp [mdel, List.filter_cons, hk]
        rw [this, countOwned_cons]
        exact ih.trans (Nat.le_add_left _ _)
      · have : mdel (a :: rest) k = a :: mdel rest k := by
          simp [mdel, List.filter_cons, hk]
        rw [this, countOwned_cons, countOwned_cons]
        exact Nat.add_le_add_left ih _

theorem countOwned_mset_le (m : List (String × ProjectileState)) (k : String)
    (v : ProjectileState) (pid : String) :
    countOwned (mset m k v) pid ≤ countOwned m pid + 1 := by
  induction m with
  | nil =>
      rw [show mset [] k v = [(k, v)] from rfl, countOwned_cons, countOwned_nil]
      split_ifs <;> simp
  | cons a rest ih =>
      simp only [mset]
      split_ifs with hk
      · rw [countOwned_cons, countOwned_cons]
        have h1 : countOwned rest pid ≤ countOwned rest pid +
            (if a.2.ownerId = pid then 1 else 0) := Nat.le_add_right _ _
        split_ifs <;> omega
      · rw [countOwned_cons, countOwned_cons]
        omega

theorem countOwned_mset_other (m : List (String × ProjectileState)) (k : String)
    (v : ProjectileState) (pid : String) (hv : ¬ v.ownerId = pid) :
    countOwned (mset m k v) pid ≤ countOwned m pid := by
  induction m with
  | nil =>
      rw [show mset [] k v = [(k, v)] from rfl, countOwned_cons, countOwned_nil]
      simp [hv]
  | cons a rest ih =>
      simp only [mset]
      split_ifs with hk
      · rw [countOwned_cons, countOwned_cons]
        simp only [hv, if_false]
        omega
      · rw [countOwned_cons, countOwned_cons]
        omega

theorem countOwned_mset_lookup (m : List (String × ProjectileState)) (k : String)
    (v0 v : ProjectileState) (hl : mlookup m k = some v0) (ho : v.ownerId = v0.ownerId)
    (pid : String) : countOwned (mset m k v) pid = countOwned m pid := by
  induction m with
  | nil => simp [mlookup] at hl
  | cons a rest ih =>
      rw [mlookup_cons] at hl
      simp only [mset]
      split_ifs with hk
      · rw [if_pos hk] at hl
        have ha : a.2 = v0 := by injection hl
        rw [countOwned_cons, countOwned_cons]
        have : (v.ownerId = pid) = (a.2.ownerId = pid) := by rw [ho, ha]
        simp only [this]
      · rw [if_neg hk] at hl
        rw [countOwned_cons, countOwned_cons, ih hl]

theorem InvC_endGame (room : GameRoom) (wid : String) : InvC (endGame room wid).1 := by
  intro pid
  exact Nat.zero_le _

theorem damagePlayer_projectiles (room : GameRoom) (tid : String) (d : ℚ) (sid : String) :
    (damagePlayer room tid d sid).1.projectiles = room.projectiles ∨
    (damagePlayer room tid d sid).1.projectiles = [] := by
  unfold damagePlayer
  split
  · exact Or.inl rfl
  · simp only []
    split_ifs with hdead
    · split
      · split_ifs with hwin
        · exact Or.inr rfl
        · exact Or.inl rfl
      · exact Or.inl rfl
    · exact Or.inl rfl

theorem InvC_damagePlayer (room : GameRoom) (tid : String) (d : ℚ) (sid : String)
    (h : InvC room) : InvC (damagePlayer room tid d sid).1 := by
  rcases damagePlayer_projectiles room tid d sid with heq | heq <;> intro pid <;> rw [heq]
  · exact h pid
  · exact Nat.zero_le _

theorem startReload_projectiles (room : GameRoom) (pid : String) :
    (startReload room pid).projectiles = room.projectiles := by
  unfold startReload
  split <;> rfl

theorem reloadComplete_projectiles (room : GameRoom) (pid : String) :
    (reloadComplete room pid).projectiles = room.projectiles := by
  unfold reloadComplete
  split_ifs with ht
  · split
    · rfl
    · split_ifs with hdead <;> rfl
  · rfl

theorem manualReload_projectiles (room : GameRoom) (pid : String) :
    (manualReload room pid).projectiles = room.projectiles := by
  unfold manualReload
  split
  · rfl
  · split_ifs with h1 h2
    · rfl
    · rfl
    · exact startReload_projectiles room pid

theorem grantSpawnProtection_projectiles (room : GameRoom) (pid : String) :
    (grantSpawnProtection room pid).projectiles = room.projectiles := by
  unfold grantSpawnProtection
  split <;> rfl

theorem spawnProtectionExpire_projectiles (room : GameRoom) (pid : String) :
    (spawnProtectionExpire room pid).projectiles = room.projectiles := by
  unfold spawnProtectionExpire
  split_ifs with ht <;> rfl

theorem respawnPlayer_projectiles (room : GameRoom) (pid : String) :
    (respawnPlayer room pid).projectiles = room.projectiles := by
  unfold respawnPlayer
  split
  · rfl
  · split_ifs with hdead
    · exact grantSpawnProtection_projectiles _ pid
    · rfl

theorem InvC_handleHitscan (env : MathEnv) (room : GameRoom) (sid : String)
    (angle damage range : ℚ) (h : InvC room) :
    InvC (handleHitscan env room sid angle damage range).1 := by
  unfold handleHitscan
  split
  · exact h
  · next player hl =>
      simp only []
      split
      · next tid heq => exact InvC_damagePlayer room tid damage player.id h
      · split
        · next obsId heq =>
            split
            · next obs hobs =>
                simp only []
                split_ifs with hbroke
                · exact fun pid => h pid
                · exact fun pid => h pid
            · exact h
        · exact h

theorem InvC_tryShoot (env : MathEnv) (room : GameRoom) (pid : String) (now rand : ℚ)
    (h : InvC room) : InvC (tryShoot env room pid now rand).1 := by
  unfold tryShoot
  split
  · exact h
  · next player hl =>
      simp only []
      split_ifs with hg hcool hcap hc2 hc1 hc1x
      · exact h
      · exact h
      · exact h
      · exact InvC_handleHitscan env _ pid _ _ _ (fun q => by
          rw [startReload_projectiles]
          exact h q)
      · exact InvC_handleHitscan env _ pid _ _ _ (fun q => h q)
      · intro q
        show countOwned (mset (startReload _ pid).projectiles _ _) q ≤ _
        rw [startReload_projectiles]
        by_cases hq : q = player.id
        · rw [hq]
          calc countOwned (mset room.projectiles _ _) player.id ≤
              countOwned room.projectiles player.id + 1 :=
            countOwned_mset_le _ _ _ _
          _ ≤ MAX_PROJECTILES_PER_PLAYER := by
            have : countOwned room.projectiles player.id < MAX_PROJECTILES_PER_PLAYER :=
              lt_of_not_le hcap
            omega
        · calc countOwned (mset room.projectiles _ _) q ≤ countOwned room.projectiles q :=
            countOwned_mset_other _ _ _ _ (by simpa using fun hx => hq hx.symm)
          _ ≤ MAX_PROJECTILES_PER_PLAYER := h q
      · intro q
        by_cases hq : q = player.id
        · rw [hq]
          calc countOwned (mset room.projectiles _ _) player.id ≤
              countOwned room.projectiles player.id + 1 :=
            countOwned_mset_le _ _ _ _
          _ ≤ MAX_PROJECTILES_PER_PLAYER := by
            have : countOwned room.projectiles player.id < MAX_PROJECTILES_PER_PLAYER :=
              lt_of_not_le hcap
            omega
        · calc countOwned (mset room.projectiles _ _) q ≤ countOwned room.projectiles q :=
            countOwned_mset_other _ _ _ _ (by simpa using fun hx => hq hx.symm)
          _ ≤ MAX_PROJECTILES_PER_PLAYER := h q

theorem InvC_updatePlayer (env : MathEnv) (room : GameRoom) (pid : String) (input : InputState)
    (now rand : ℚ) (h : InvC room) : InvC (updatePlayer env room pid input now rand).1 := by
  unfold updatePlayer
  split
  · exact h
  · next player hl =>
      simp only []
      split_ifs with hs
      · exact InvC_tryShoot env _ pid now rand (fun q => h q)
      · exact fun q => h q

theorem InvC_playerTickStep (env : MathEnv) (room : GameRoom) (pid : String) (now rand : ℚ)
    (h : InvC room) : InvC (playerTickStep env room pid now rand).1 := by
  unfold playerTickStep
  split
  · exact h
  · next player hl =>
      split_ifs with hdead
      · exact h
      · split
        · next input hin => exact InvC_updatePlayer env room pid input now rand h
        · exact h

theorem InvC_updatePlayersPhase (env : MathEnv) (room : GameRoom) (now : ℚ)
    (rands : String → ℚ) (h : InvC room) : InvC (updatePlayersPhase env room now rands).1 := by
  unfold updatePlayersPhase
  apply foldl_preserves (fun acc : GameRoom × List GameEvent => InvC acc.1)
  · intro b a hb
    exact InvC_playerTickStep env b.1 a now (rands a) hb
  · exact h

theorem InvC_projectileStep (env : MathEnv) (now : ℚ) (room : GameRoom) (projId : String)
    (h : InvC room) : InvC (projectileStep env now room projId) := by
  unfold projectileStep
  split
  · exact h
  · next proj0 hl =>
      simp only []
      have hset : ∀ q, countOwned (mset room.projectiles projId
          { proj0 with x := proj0.x + env.cos proj0.angle * proj0.speed,
                       y := proj0.y + env.sin proj0.angle * proj0.speed }) q =
          countOwned room.projectiles q :=
        countOwned_mset_lookup room.projectiles projId proj0 _ hl rfl
      split_ifs with hout hwall
      · intro q
        calc countOwned (mdel _ projId) q ≤ _ := countOwned_mdel_le _ _ _
        _ = countOwned room.projectiles q := hset q
        _ ≤ _ := h q
      · intro q
        calc countOwned (mdel _ projId) q ≤ _ := countOwned_mdel_le _ _ _
        _ = countOwned room.projectiles q := hset q
        _ ≤ _ := h q
      · split
        · next e2 hfind =>
            intro q
            calc countOwned (mdel _ projId) q ≤ _ := countOwned_mdel_le _ _ _
            _ = countOwned room.projectiles q := hset q
            _ ≤ _ := h q
        · intro q
          calc countOwned (mset _ projId _) q = countOwned room.projectiles q := hset q
          _ ≤ _ := h q

theorem InvC_updateProjectiles (env : MathEnv) (room : GameRoom) (now : ℚ) (h : InvC room) :
    InvC (updateProjectiles env room now) := by
  unfold updateProjectiles
  apply foldl_preserves (fun r : GameRoom => InvC r)
  · intro b a hb
    exact InvC_projectileStep env now b a hb
  · exact h

theorem InvC_collideProjectile (env : MathEnv) (room : GameRoom) (projId : String)
    (h : InvC room) : InvC (collideProjectile env room projId).1 := by
  unfold collideProjectile
  split
  · exact h
  · next proj hl =>
      split
      · exact h
      · next entry hfind =>
          simp only []
          have h2 : InvC (damagePlayer room entry.1 proj.damage proj.ownerId).1 :=
            InvC_damagePlayer room entry.1 proj.damage proj.ownerId h
          intro q
          calc countOwned (mdel _ projId) q ≤ _ := countOwned_mdel_le _ _ _
          _ ≤ _ := h2 q

theorem InvC_checkCollisions (env : MathEnv) (room : GameRoom) (h : InvC room) :
    InvC (checkCollisions env room).1 := by
  unfold checkCollisions
  apply foldl_preserves (fun acc : GameRoom × List GameEvent => InvC acc.1)
  · intro b a hb
    exact InvC_collideProjectile env b.1 a hb
  · exact h

theorem InvC_update (env : MathEnv) (room : GameRoom) (now : ℚ) (rands : String → ℚ)
    (h : InvC room) : InvC (update env room now rands).1 := by
  unfold update
  simp only []
  exact InvC_checkCollisions env _
    (InvC_updateProjectiles env _ now (InvC_updatePlayersPhase env room now rands h))

theorem InvC_roomTick (env : MathEnv) (room : GameRoom) (now : ℚ) (rands : String → ℚ)
    (h : InvC room) : InvC (roomTick env room now rands).1 := by
  unfold roomTick
  split_ifs with hrun
  · exact fun q => InvC_update env room now rands h q
  · exact h

theorem InvC_applyOp (env : MathEnv) (room : GameRoom) (op : RoomOp) (h : InvC room) :
    InvC (applyOp env room op) := by
  cases op with
  | inputOp pid input => exact fun q => h q
  | tickOp now rands => exact InvC_roomTick env room now rands h
  | manualReloadOp pid =>
      intro q
      show countOwned (manualReload room pid).projectiles q ≤ _
      rw [manualReload_projectiles]
      exact h q
  | reloadTimerFires pid =>
      intro q
      show countOwned (reloadComplete room pid).projectiles q ≤ _
      rw [reloadComplete_projectiles]
      exact h q
  | respawnOp pid =>
      intro q
      show countOwned (respawnPlayer room pid).projectiles q ≤ _
      rw [respawnPlayer_projectiles]
      exact h q
  | spawnProtectionTimerFires pid =>
      intro q
      show countOwned (spawnProtectionExpire room pid).projectiles q ≤ _
      rw [spawnProtectionExpire_projectiles]
      exact h q

theorem InvC_applyOps (env : MathEnv) (room : GameRoom) (ops : List RoomOp) (h : InvC room) :
    InvC (applyOps env room ops) := by
  unfold applyOps
  apply foldl_preserves InvC
  · intro b a hb
    exact InvC_applyOp env b a hb
  · exact h

/-- A shot attempted while the shooter is at the projectile cap is
dropped: nothing in the room changes and no event is emitted. -/
theorem tryShoot_at_cap (env : MathEnv) (room : GameRoom) (pid : String) (now rand : ℚ)
    (player : PlayerState) (hl : mlookup room.players pid = some player)
    (hcap : MAX_PROJECTILES_PER_PLAYER ≤ countOwned room.projectiles player.id) :
    tryShoot env room pid now rand = (room, []) := by
  unfold tryShoot
  rw [hl]
  simp only []
  split_ifs with hg hcool hcap2
  · rfl
  · rfl
  · rfl
  all_goals exact absurd hcap hcap2

/-! ### Lemmas: fuel and vertical-velocity case analysis -/

theorem fuelStep_drain (stats : MovementStats) (fuel : ℚ) (g : Prop) [Decidable g]
    (hjet : 0 < stats.fuel) (hf : 0 < fuel) :
    fuelStep stats fuel g true = (jsMax 0 (fuel - stats.fuelDrain), true) := by
  unfold fuelStep fuelRegenStep fuelDrainStep
  split_ifs <;> try simp_all
  all_goals linarith

theorem fuelStep_denied (stats : MovementStats) (fuel : ℚ) (g : Prop) [Decidable g]
    (hjet : 0 < stats.fuel) (hf : fuel ≤ 0) :
    fuelStep stats fuel g true =
      (if g then jsMin stats.fuel (fuel + stats.fuelRegen) else fuel, false) := by
  unfold fuelStep fuelRegenStep fuelDrainStep
  split_ifs <;> try simp_all
  all_goals linarith

theorem fuelStep_noAscend (stats : MovementStats) (fuel : ℚ) (g : Prop) [Decidable g]
    (hjet : 0 < stats.fuel) :
    fuelStep stats fuel g false =
      (if g then jsMin stats.fuel (fuel + stats.fuelRegen) else fuel, false) := by
  unfold fuelStep fuelRegenStep fuelDrainStep
  split_ifs <;> try simp_all
  all_goals linarith

theorem vzStep_ascend (stats : MovementStats) (m : MovementType) (d : Bool) (vx vy : ℚ) :
    vzStep stats m true d vx vy = stats.zClimbRate := by
  unfold vzStep
  rw [if_pos rfl]

theorem vzStep_descend (stats : MovementStats) (m : MovementType) (vx vy : ℚ) :
    vzStep stats m false true vx vy = -stats.zClimbRate := by
  unfold vzStep
  rw [if_neg (by simp), if_pos rfl]

theorem vzStep_no_ascend_nonpos (m : MovementType) (d : Bool) (vx vy : ℚ) :
    vzStep (MOVEMENT_STATS m) m false d vx vy ≤ 0 := by
  obtain ⟨_, _, _, hc, hf⟩ := movement_stats_nonneg m
  unfold vzStep
  rw [if_neg (by simp)]
  simp only []
  split_ifs
  · linarith
  · exact le_refl 0
  · linarith
  · norm_num [GRAVITY]
  · linarith

/-! ### Further association-list facts -/

theorem countOwned_le_length (m : List (String × ProjectileState)) (pid : String) :
    countOwned m pid ≤ m.length :=
  List.length_filter_le _ _

theorem mem_mset_self {α : Type} (m : List (String × α)) (k : String) (v : α) :
    (k, v) ∈ mset m k v := by
  induction m with
  | nil => simp [mset]
  | cons a rest ih =>
      simp only [mset]
      split_ifs with hk
      · exact List.mem_cons_self _ _
      · exact List.mem_cons_of_mem a ih

/-! ### Claim C5 -/

/-- C5: for every Combatant, every movement archetype, and every sequence
of room operations (ticks with arbitrary buffered inputs, manual reloads,
reload-timer completions, respawns, spawn-protection expiries) applied to
a room satisfying the bounds invariant, the bounds hold afterwards:
altitude z stays within [0, 100], health within [0, maxHealth], ammo
within [0, clipSize] and fuel within [0, maxFuel]. -/
theorem C5_bounds_after_any_op_sequence (env : MathEnv) (room : GameRoom) (hB : InvB room)
    (ops : List RoomOp) :
    ∀ e ∈ (applyOps env room ops).players,
      0 ≤ e.2.z ∧ e.2.z ≤ 100 ∧
      0 ≤ e.2.health ∧ e.2.health ≤ e.2.maxHealth ∧
      0 ≤ e.2.ammo ∧ e.2.ammo ≤ (WEAPON_STATS e.2.weapon).clipSize ∧
      0 ≤ e.2.fuel ∧ e.2.fuel ≤ e.2.maxFuel := by
  intro e he
  obtain ⟨z0, z1, h0, h1, a0, a1, f0, f1, _, _⟩ := (InvB_applyOps env room ops hB).1 e he
  refine ⟨z0, ?_, h0, h1, a0, a1, f0, f1⟩
  calc e.2.z ≤ MAX_Z := z1
  _ = 100 := by norm_num [MAX_Z]

theorem C5_witness :
    InvB baseRoom ∧
    (∀ e ∈ (applyOps testEnv baseRoom
        [RoomOp.inputOp "a" jumpInput, RoomOp.tickOp 0 (fun _ => 0),
         RoomOp.respawnOp "b", RoomOp.reloadTimerFires "a"]).players,
      0 ≤ e.2.z ∧ e.2.z ≤ 100 ∧
      0 ≤ e.2.health ∧ e.2.health ≤ e.2.maxHealth ∧
      0 ≤ e.2.ammo ∧ e.2.ammo ≤ (WEAPON_STATS e.2.weapon).clipSize ∧
      0 ≤ e.2.fuel ∧ e.2.fuel ≤ e.2.maxFuel) :=
  ⟨by decide, C5_bounds_after_any_op_sequence testEnv baseRoom (by decide) _⟩

/-! ### Claim C8 -/

/-- C8: over every operation sequence the per-player live-projectile count
never exceeds the configured cap, and a shot attempted while the shooter
is at the cap is dropped for that tick without mutating the room (in
particular, without spawning a projectile). -/
theorem C8_projectile_cap (env : MathEnv) :
    (∀ room : GameRoom, InvC room → ∀ ops : List RoomOp, InvC (applyOps env room ops)) ∧
    (∀ (room : GameRoom) (pid : String) (now rand : ℚ) (player : PlayerState),
      mlookup room.players pid = some player →
      MAX_PROJECTILES_PER_PLAYER ≤ countOwned room.projectiles player.id →
      tryShoot env room pid now rand = (room, [])) :=
  ⟨fun room h ops => InvC_applyOps env room ops h,
   fun room pid now rand player hl hcap => tryShoot_at_cap env room pid now rand player hl hcap⟩

theorem C8_witness :
    InvC roomAtCap ∧
    InvC (applyOps testEnv roomAtCap [RoomOp.tickOp 0 (fun _ => 0)]) ∧
    tryShoot testEnv roomAtCap "a" 0 0 = (roomAtCap, []) := by
  have hc : InvC roomAtCap := fun pid =>
    le_trans (countOwned_le_length _ _) (by decide)
  exact ⟨hc, (C8_projectile_cap testEnv).1 roomAtCap hc _,
    (C8_projectile_cap testEnv).2 roomAtCap "a" 0 0 (basePlayer "a") (by decide) (by decide)⟩

/-! ### Claim C3 -/

/-- C3 counterexample: a grounded fire-jetpack player holding only the
descend key performs active descent thrust (velocityZ is the full
negative climb rate) yet its fuel INCREASES from 50 to 51.5 that tick,
so descending thrust neither consumes fuel nor blocks regeneration;
additionally, with an empty tank the descend thrust is still granted.
The evaluation path touches no Math-environment function, so the result
is the same for the exact JavaScript Math functions. -/
theorem C3_counterexample :
    0 < (MOVEMENT_STATS jetpackPlayer.movement).fuel ∧
    crouchInput.crouch = true ∧ crouchInput.jump = false ∧
    (movePlayer testEnv jetpackPlayer crouchInput).velocityZ =
      -(MOVEMENT_STATS jetpackPlayer.movement).zClimbRate ∧
    jetpackPlayer.fuel = 50 ∧
    (movePlayer testEnv jetpackPlayer crouchInput).fuel = 103/2 ∧
    jetpackPlayer.fuel < (movePlayer testEnv jetpackPlayer crouchInput).fuel ∧
    (movePlayer testEnv { jetpackPlayer with fuel := 0 } crouchInput).velocityZ =
      -(MOVEMENT_STATS jetpackPlayer.movement).zClimbRate := by
  refine ⟨by norm_num [MOVEMENT_STATS, jetpackPlayer, basePlayer], rfl, rfl, ?_, rfl, ?_, ?_, ?_⟩ <;>
    norm_num [movePlayer, fuelStep, fuelRegenStep, fuelDrainStep, vzStep, jsMax, jsMin, jsAbs,
      jsAtan2, rectCircleCollision, testEnv, jetpackPlayer, basePlayer, crouchInput,
      allFalseInput, MOVEMENT_STATS, MIN_Z, MAX_Z, DEFAULT_Z, GRAVITY, PLAYER_RADIUS,
      MAX_HEALTH, ARENAS, GAME_WIDTH, GAME_HEIGHT]

/-- C3 amended: for a fuel-based archetype, only ascending thrust consumes
fuel: ascending with fuel available drains fuelDrain (floored at 0) and
grants the climb; ascending with an exhausted tank is denied (the
vertical velocity is non-positive) and does not drain; when not
effectively ascending — including while actively descending — no fuel is
consumed and fuel regenerates exactly when the Combatant is grounded;
descending thrust is always granted regardless of fuel. -/
theorem C3_fuel_semantics (env : MathEnv) (p : PlayerState) (input : InputState)
    (hfuel : 0 < (MOVEMENT_STATS p.movement).fuel) :
    ((input.jump = true ∧ 0 < p.fuel) →
      (movePlayer env p input).fuel =
        jsMax 0 (p.fuel - (MOVEMENT_STATS p.movement).fuelDrain) ∧
      (movePlayer env p input).velocityZ = (MOVEMENT_STATS p.movement).zClimbRate) ∧
    ((input.jump = true ∧ p.fuel ≤ 0) →
      (movePlayer env p input).velocityZ ≤ 0 ∧
      (movePlayer env p input).fuel =
        (if p.z ≤ MIN_Z + 5
          then jsMin (MOVEMENT_STATS p.movement).fuel
            (p.fuel + (MOVEMENT_STATS p.movement).fuelRegen)
          else p.fuel)) ∧
    ((input.jump = false) →
      (movePlayer env p input).fuel =
        (if p.z ≤ MIN_Z + 5
          then jsMin (MOVEMENT_STATS p.movement).fuel
            (p.fuel + (MOVEMENT_STATS p.movement).fuelRegen)
          else p.fuel) ∧
      (input.crouch = true →
        (movePlayer env p input).velocityZ = -(MOVEMENT_STATS p.movement).zClimbRate)) := by
  refine ⟨?_, ?_, ?_⟩
  · rintro ⟨hj, hf⟩
    have hd := fuelStep_drain (MOVEMENT_STATS p.movement) p.fuel (p.z ≤ MIN_Z + 5) hfuel hf
    rw [movePlayer_fuel_eq, movePlayer_vz_eq, hj, hd]
    exact ⟨rfl, vzStep_ascend _ _ _ _ _⟩
  · rintro ⟨hj, hf⟩
    have hd := fuelStep_denied (MOVEMENT_STATS p.movement) p.fuel (p.z ≤ MIN_Z + 5) hfuel hf
    rw [movePlayer_fuel_eq, movePlayer_vz_eq, hj, hd]
    exact ⟨vzStep_no_ascend_nonpos p.movement _ _ _, rfl⟩
  · intro hj
    have hd := fuelStep_noAscend (MOVEMENT_STATS p.movement) p.fuel (p.z ≤ MIN_Z + 5) hfuel
    rw [movePlayer_fuel_eq, movePlayer_vz_eq, hj, hd]
    refine ⟨rfl, ?_⟩
    intro hc
    rw [hc]
    exact vzStep_descend _ _ _ _

theorem C3_witness :
    (0 < (MOVEMENT_STATS jetpackPlayer.movement).fuel) ∧
    ((movePlayer testEnv jetpackPlayer crouchInput).fuel =
      (if jetpackPlayer.z ≤ MIN_Z + 5
        then jsMin (MOVEMENT_STATS jetpackPlayer.movement).fuel
          (jetpackPlayer.fuel + (MOVEMENT_STATS jetpackPlayer.movement).fuelRegen)
        else jetpackPlayer.fuel) ∧
     (movePlayer testEnv jetpackPlayer crouchInput).velocityZ =
       -(MOVEMENT_STATS jetpackPlayer.movement).zClimbRate) :=
  ⟨by decide,
   ⟨((C3_fuel_semantics testEnv jetpackPlayer crouchInput (by decide)).2.2 rfl).1,
    ((C3_fuel_semantics testEnv jetpackPlayer crouchInput (by decide)).2.2 rfl).2 rfl⟩⟩

/-! ### Claim C2 -/

/-- C2 amended: a Combatant for which no input record has arrived is
skipped entirely by the per-player tick update: the body of the update
loop leaves the room unchanged and emits nothing, so no friction,
gravity, position integration or altitude clamping is applied that tick. -/
theorem C2_no_input_skips_update (env : MathEnv) (room : GameRoom) (pid : String)
    (now rand : ℚ) (hin : mlookup room.playerInputs pid = none) :
    playerTickStep env room pid now rand = (room, []) := by
  unfold playerTickStep
  split
  · rfl
  · split_ifs with hdead
    · rfl
    · simp only [hin]

/-- C2 counterexample: living player a (altitude 20, wings archetype) with
no buffered input record is left untouched by the tick body (altitude
stays 20), while the same tick body after receiving the all-false input
record applies gravity and drops the altitude to 19.5; so a missing
input record is NOT treated as an all-false record.  The evaluation path
touches no Math-environment function. -/
theorem C2_counterexample :
    mlookup baseRoom.playerInputs "a" = none ∧
    (∃ p, mlookup baseRoom.players "a" = some p ∧ p.isDead = false ∧ p.z = 20) ∧
    (mlookup (playerTickStep testEnv baseRoom "a" 0 0).1.players "a").map
      (fun p => p.z) = some 20 ∧
    (mlookup (playerTickStep testEnv (handleInput baseRoom "a" allFalseInput) "a" 0 0).1.players
      "a").map (fun p => p.z) = some (39/2) ∧
    playerTickStep testEnv baseRoom "a" 0 0 ≠
      playerTickStep testEnv (handleInput baseRoom "a" allFalseInput) "a" 0 0 := by
  have h2 : (mlookup (playerTickStep testEnv (handleInput baseRoom "a" allFalseInput)
      "a" 0 0).1.players "a").map (fun p => p.z) = some (39/2) := by
    norm_num [playerTickStep, updatePlayer, handleInput, mlookup, mset, List.find?,
      movePlayer, fuelStep, fuelRegenStep, fuelDrainStep, vzStep, jsMax, jsMin, jsAbs,
      jsAtan2, rectCircleCollision, testEnv, baseRoom, basePlayer, allFalseInput,
      MOVEMENT_STATS, MIN_Z, MAX_Z, DEFAULT_Z, GRAVITY, PLAYER_RADIUS, MAX_HEALTH, ARENAS,
      GAME_WIDTH, GAME_HEIGHT]
  refine ⟨rfl, ⟨basePlayer "a", rfl, rfl, rfl⟩, rfl, h2, ?_⟩
  intro heq
  have h1 : (mlookup (playerTickStep testEnv baseRoom "a" 0 0).1.players "a").map
      (fun p => p.z) = some 20 := rfl
  rw [heq] at h1
  exact absurd (h1.symm.trans h2) (by norm_num)

theorem C2_witness :
    mlookup baseRoom.playerInputs "b" = none ∧
    playerTickStep testEnv baseRoom "b" 0 0 = (baseRoom, []) :=
  ⟨by decide, C2_no_input_skips_update testEnv baseRoom "b" 0 0 (by decide)⟩

/-! ### Claim C10 -/

theorem not_mem_filter_ne (l : List String) (pid : String) :
    pid ∉ l.filter (fun i => ¬ i = pid) := by
  intro hmem
  have h := List.of_mem_filter hmem
  simp at h

theorem grantSpawnProtection_reloadTimers (room : GameRoom) (pid : String) :
    (grantSpawnProtection room pid).reloadTimers = room.reloadTimers := by
  unfold grantSpawnProtection
  split <;> rfl

theorem grantSpawnProtection_lookup (room : GameRoom) (pid : String) (q : PlayerState)
    (hl : mlookup room.players pid = some q) :
    mlookup (grantSpawnProtection room pid).players pid =
      some { q with isInSpawn := true } := by
  unfold grantSpawnProtection
  rw [hl]
  simp only []
  exact mlookup_mset_self _ _ _

/-- C10: the reload-completion timer firing while its owner is dead
changes nothing at all (ammo stays at its pre-death value, the reloading
flag keeps its value, and even the pending timer entry is left behind,
exactly as the early return of the source skips the timer-map cleanup);
respawning afterwards refills the clip to the weapon's full size, clears
the reloading flag and cancels the pending reload timer. -/
theorem C10_reload_timer_dead_noop (room : GameRoom) (pid : String) (p : PlayerState)
    (hl : mlookup room.players pid = some p) (hdead : p.isDead = true) :
    reloadComplete room pid = room ∧
    (∀ p2, mlookup (respawnPlayer room pid).players pid = some p2 →
      p2.ammo = (WEAPON_STATS p2.weapon).clipSize ∧ p2.isReloading = false) ∧
    pid ∉ (respawnPlayer room pid).reloadTimers := by
  refine ⟨?_, ?_, ?_⟩
  · unfold reloadComplete
    split_ifs with ht
    · rw [hl]
      simp only []
      rw [if_pos hdead]
    · rfl
  · unfold respawnPlayer
    rw [hl]
    simp only []
    rw [if_neg (by simp [hdead])]
    intro p2 hp2
    rw [grantSpawnProtection_lookup _ _ _ (mlookup_mset_self _ _ _)] at hp2
    injection hp2 with hp2e
    subst hp2e
    exact ⟨rfl, rfl⟩
  · unfold respawnPlayer
    rw [hl]
    simp only []
    rw [if_neg (by simp [hdead])]
    rw [grantSpawnProtection_reloadTimers]
    exact not_mem_filter_ne _ _

theorem C10_witness :
    mlookup roomDeadOwner.players "a" = some { basePlayer "a" with isDead := true } ∧
    reloadComplete roomDeadOwner "a" = roomDeadOwner ∧
    "a" ∉ (respawnPlayer roomDeadOwner "a").reloadTimers := by
  have h := C10_reload_timer_dead_noop roomDeadOwner "a"
    { basePlayer "a" with isDead := true } (by decide) rfl
  exact ⟨by decide, h.1, h.2.2⟩

/-! ### Claim C4 -/

/-- C4: when a damage-resolution step kills its target and thereby raises
the source Combatant's kill count to the kill limit, the room ends
synchronously inside that same damagePlayer call: the tick loop is
stopped, the lifecycle flags are reset, all match entities (players,
projectiles, obstacles) are cleared, a game-ended event carrying the
final scores (including the winner's updated tally) is emitted, and a
subsequent game-loop tick leaves the room untouched and emits nothing. -/
theorem C4_kill_limit_ends_game (room : GameRoom) (tid sid : String) (d : ℚ)
    (tp sp : PlayerState)
    (hlt : mlookup room.players tid = some tp)
    (hls : mlookup room.players sid = some sp)
    (hne : ¬ sid = tid)
    (hfatal : tp.health - d ≤ 0)
    (hlimit : KILL_LIMIT ≤ sp.kills + 1) :
    (damagePlayer room tid d sid).1.gameLoopRunning = false ∧
    (damagePlayer room tid d sid).1.gameStarted = false ∧
    (damagePlayer room tid d sid).1.players = [] ∧
    (damagePlayer room tid d sid).1.projectiles = [] ∧
    (damagePlayer room tid d sid).1.obstacles = [] ∧
    (∃ scores, GameEvent.gameEnded sid scores ∈ (damagePlayer room tid d sid).2 ∧
      (sid, sp.kills + 1, sp.deaths) ∈ scores) ∧
    (∀ env now rands, roomTick env (damagePlayer room tid d sid).1 now rands =
      ((damagePlayer room tid d sid).1, [])) := by
  unfold damagePlayer
  rw [hlt]
  simp only []
  rw [if_pos hfatal, mlookup_mset_ne _ _ _ _ hne, hls]
  simp only []
  rw [if_pos hlimit]
  unfold endGame
  simp only []
  refine ⟨by trivial, by trivial, by trivial, by trivial, by trivial, ?_, ?_⟩
  · refine ⟨_, List.mem_cons_of_mem _ (List.mem_cons_self _ _), ?_⟩
    exact List.mem_map_of_mem _ (mem_mset_self _ sid _)
  · intro env now rands
    unfold roomTick
    rw [if_neg (by simp)]

theorem C4_witness :
    mlookup roomMatchPoint.players "b" =
      some { basePlayer "b" with y := 200, health := 5 } ∧
    mlookup roomMatchPoint.players "a" =
      some { basePlayer "a" with kills := 10 } ∧
    ({ basePlayer "b" with y := 200, health := 5 } : PlayerState).health - 8 ≤ 0 ∧
    KILL_LIMIT ≤ ({ basePlayer "a" with kills := 10 } : PlayerState).kills + 1 ∧
    (damagePlayer roomMatchPoint "b" 8 "a").1.players = [] ∧
    (damagePlayer roomMatchPoint "b" 8 "a").1.gameLoopRunning = false := by
  have h := C4_kill_limit_ends_game roomMatchPoint "b" "a" 8
    { basePlayer "b" with y := 200, health := 5 }
    { basePlayer "a" with kills := 10 }
    (by decide) (by decide) (by decide) (by norm_num [basePlayer, MAX_HEALTH]) (by decide)
  exact ⟨by decide, by decide, by norm_num [basePlayer, MAX_HEALTH], by decide, h.2.2.1, h.1⟩

/-! ### Lemmas: the nearest-obstacle scan -/

theorem JVal_lt_fin0 {t : JVal} (h : JVal.lt (.fin 0) t = true) :
    t = .posinf ∨ ∃ x : ℚ, t = .fin x ∧ 0 < x := by
  cases t with
  | nan => simp [JVal.lt] at h
  | neginf => simp [JVal.lt] at h
  | posinf => exact Or.inl rfl
  | fin x =>
      refine Or.inr ⟨x, rfl, ?_⟩
      simpa [JVal.lt] using h

theorem JVal_lt_fin {t : JVal} {c : ℚ} (h : JVal.lt t (.fin c) = true) :
    t = .neginf ∨ ∃ x : ℚ, t = .fin x ∧ x < c := by
  cases t with
  | nan => simp [JVal.lt] at h
  | neginf => exact Or.inl rfl
  | posinf => simp [JVal.lt] at h
  | fin x =>
      refine Or.inr ⟨x, rfl, ?_⟩
      simpa [JVal.lt] using h

/-- One scan step either leaves the accumulator (and then every positive
finite candidate of this rectangle is at least the current closest
distance) or replaces it by this rectangle's positive distance. -/
theorem obsScanStep_cases (ox oy dirX dirY : ℚ) (oid : Option String)
    (acc : ℚ × Option String) (rect : Rect) :
    (obsScanStep ox oy dirX dirY oid acc rect = acc ∧
      ∀ x : ℚ, rayRectIntersect ox oy dirX dirY rect = some (JVal.fin x) → 0 < x →
        acc.1 ≤ x) ∨
    (∃ x : ℚ, rayRectIntersect ox oy dirX dirY rect = some (JVal.fin x) ∧ 0 < x ∧
      x < acc.1 ∧ obsScanStep ox oy dirX dirY oid acc rect = (x, oid)) := by
  unfold obsScanStep
  cases hray : rayRectIntersect ox oy dirX dirY rect with
  | none =>
      left
      refine ⟨rfl, ?_⟩
      intro x hx
      simp at hx
  | some t =>
      simp only []
      split_ifs with hcond
      · right
        obtain ⟨h1, h2⟩ := hcond
        rcases JVal_lt_fin h2 with rfl | ⟨x, rfl, hxlt⟩
        · simp [JVal.lt] at h1
        · have hx0 : 0 < x := by simpa [JVal.lt] using h1
          exact ⟨x, rfl, hx0, hxlt, rfl⟩
      · left
        refine ⟨rfl, ?_⟩
        intro x hx hx0
        injection hx with hx
        subst hx
        by_contra hlt
        exact hcond ⟨by simpa [JVal.lt] using hx0, by simpa [JVal.lt] using lt_of_not_le hlt⟩

/-- Fold spec for the nearest-obstacle scan: the closest distance never
increases and ends up at most every positive finite candidate. -/
theorem obsScanFold_spec {α : Type} (ox oy dirX dirY : ℚ) (rectOf : α → Rect)
    (oidOf : α → Option String) :
    ∀ (l : List α) (acc : ℚ × Option String),
      (l.foldl (fun a e => obsScanStep ox oy dirX dirY (oidOf e) a (rectOf e)) acc).1 ≤ acc.1 ∧
      (∀ e ∈ l, ∀ x : ℚ,
        rayRectIntersect ox oy dirX dirY (rectOf e) = some (JVal.fin x) → 0 < x →
        (l.foldl (fun a e => obsScanStep ox oy dirX dirY (oidOf e) a (rectOf e)) acc).1 ≤ x) := by
  intro l
  induction l with
  | nil =>
      intro acc
      exact ⟨le_refl _, fun e he => absurd he (List.not_mem_nil e)⟩
  | cons a rest ih =>
      intro acc
      rw [List.foldl_cons]
      rcases obsScanStep_cases ox oy dirX dirY (oidOf a) acc (rectOf a) with
        ⟨hacc, hbound⟩ | ⟨x, hray, hx0, hxlt, hstep⟩
      · rw [hacc]
        obtain ⟨ih1, ih2⟩ := ih acc
        refine ⟨ih1, ?_⟩
        intro e he y hy hy0
        rcases List.mem_cons.mp he with rfl | he2
        · exact le_trans ih1 (hbound y hy hy0)
        · exact ih2 e he2 y hy hy0
      · rw [hstep]
        obtain ⟨ih1, ih2⟩ := ih (x, oidOf a)
        refine ⟨le_trans ih1 (le_of_lt hxlt), ?_⟩
        intro e he y hy hy0
        rcases List.mem_cons.mp he with rfl | he2
        · rw [hray] at hy
          injection hy with hy
          injection hy with hy
          subst hy
          exact ih1
        · exact ih2 e he2 y hy hy0

/-- If no wall or obstacle offers a positive candidate within range, the
scan leaves (range, none) untouched. -/
theorem obsScanFold_noHit {α : Type} (ox oy dirX dirY range : ℚ) (rectOf : α → Rect)
    (oidOf : α → Option String) :
    ∀ l : List α,
      (∀ e ∈ l, ∀ t, rayRectIntersect ox oy dirX dirY (rectOf e) = some t →
        ¬ (JVal.lt (.fin 0) t = true ∧ JVal.lt t (.fin range) = true)) →
      l.foldl (fun a e => obsScanStep ox oy dirX dirY (oidOf e) a (rectOf e))
        (range, none) = (range, none) := by
  intro l
  induction l with
  | nil => intro h; rfl
  | cons a rest ih =>
      intro h
      rw [List.foldl_cons]
      have hstep : obsScanStep ox oy dirX dirY (oidOf a) (range, none) (rectOf a) =
          (range, none) := by
        unfold obsScanStep
        cases hray : rayRectIntersect ox oy dirX dirY (rectOf a) with
        | none => rfl
        | some t =>
            simp only []
            rw [if_neg]
            exact h a (List.mem_cons_self a rest) t hray
      rw [hstep]
      exact ih (fun e he t ht => h e (List.mem_cons_of_mem a he) t ht)

/-! ### Lemmas: the player hitscan scan -/

/-- One step of the player scan either leaves the accumulator or records
an eligible target whose ray distance is positive and below the current
best. -/
theorem playerScanStep_cases (env : MathEnv) (shooter : PlayerState) (dirX dirY : ℚ)
    (acc : ℚ × Option String) (entry : String × PlayerState) :
    playerScanStep env shooter dirX dirY acc entry = acc ∨
    (¬ entry.2.id = shooter.id ∧ entry.2.isDead = false ∧
      entry.2.currentArena = shooter.currentArena ∧ entry.2.isInSpawn = false ∧
      jsAbs (entry.2.z - shooter.z) ≤ Z_HIT_TOLERANCE ∧
      0 ≤ rayCircleDisc shooter.x shooter.y dirX dirY entry.2.x entry.2.y ∧
      0 < rayCircleT env shooter.x shooter.y dirX dirY entry.2.x entry.2.y ∧
      rayCircleT env shooter.x shooter.y dirX dirY entry.2.x entry.2.y < acc.1 ∧
      playerScanStep env shooter dirX dirY acc entry =
        (rayCircleT env shooter.x shooter.y dirX dirY entry.2.x entry.2.y,
         some entry.1)) := by
  unfold playerScanStep
  simp only []
  split_ifs with h1 h2 h3 h4 h5 h6 h7 <;>
    first
      | exact Or.inl rfl
      | exact Or.inr ⟨h1, by simpa using h2, h3, by simpa using h4, le_of_not_lt h5, h6,
          h7.1, h7.2, rfl⟩

/-- Fold spec for the player scan: either the accumulator is returned
unchanged, or the result names an eligible entry of the list whose ray
distance is the result distance, positive and below the starting bound. -/
theorem playerScan_spec (env : MathEnv) (shooter : PlayerState) (dirX dirY : ℚ) :
    ∀ (l : List (String × PlayerState)) (acc : ℚ × Option String),
      l.foldl (playerScanStep env shooter dirX dirY) acc = acc ∨
      ∃ e ∈ l,
        (l.foldl (playerScanStep env shooter dirX dirY) acc).2 = some e.1 ∧
        ¬ e.2.id = shooter.id ∧ e.2.isDead = false ∧
        e.2.currentArena = shooter.currentArena ∧ e.2.isInSpawn = false ∧
        jsAbs (e.2.z - shooter.z) ≤ Z_HIT_TOLERANCE ∧
        0 ≤ rayCircleDisc shooter.x shooter.y dirX dirY e.2.x e.2.y ∧
        (l.foldl (playerScanStep env shooter dirX dirY) acc).1 =
          rayCircleT env shooter.x shooter.y dirX dirY e.2.x e.2.y ∧
        0 < (l.foldl (playerScanStep env shooter dirX dirY) acc).1 ∧
        (l.foldl (playerScanStep env shooter dirX dirY) acc).1 < acc.1 := by
  intro l
  induction l with
  | nil => intro acc; exact Or.inl rfl
  | cons a rest ih =>
      intro acc
      rw [List.foldl_cons]
      rcases playerScanStep_cases env shooter dirX dirY acc a with hstep |
        ⟨hid, hdead, harena, hspawn, hz, hdisc, ht0, htlt, hstep⟩
      · rw [hstep]
        rcases ih acc with h | ⟨e, he, hrest⟩
        · exact Or.inl h
        · exact Or.inr ⟨e, List.mem_cons_of_mem a he, hrest⟩
      · rw [hstep]
        rcases ih (rayCircleT env shooter.x shooter.y dirX dirY a.2.x a.2.y, some a.1) with
          h | ⟨e, he, h2, hid2, hdead2, harena2, hspawn2, hz2, hdisc2, heq2, h02, hlt2⟩
        · refine Or.inr ⟨a, List.mem_cons_self a rest, ?_⟩
          rw [h]
          exact ⟨rfl, hid, hdead, harena, hspawn, hz, hdisc, rfl, ht0, htlt⟩
        · refine Or.inr ⟨e, List.mem_cons_of_mem a he,
            h2, hid2, hdead2, harena2, hspawn2, hz2, hdisc2, heq2, h02, lt_trans hlt2 htlt⟩

/-- If no list entry is an eligible hit within the starting bound, the
player scan returns (range, none) unchanged. -/
theorem playerScan_noHit (env : MathEnv) (shooter : PlayerState) (dirX dirY range : ℚ) :
    ∀ l : List (String × PlayerState),
      (∀ e ∈ l, ¬ e.2.id = shooter.id → e.2.isDead = false →
        e.2.currentArena = shooter.currentArena → e.2.isInSpawn = false →
        jsAbs (e.2.z - shooter.z) ≤ Z_HIT_TOLERANCE →
        0 ≤ rayCircleDisc shooter.x shooter.y dirX dirY e.2.x e.2.y →
        ¬ (0 < rayCircleT env shooter.x shooter.y dirX dirY e.2.x e.2.y ∧
           rayCircleT env shooter.x shooter.y dirX dirY e.2.x e.2.y < range)) →
      l.foldl (playerScanStep env shooter dirX dirY) (range, none) = (range, none) := by
  intro l
  induction l with
  | nil => intro h; rfl
  | cons a rest ih =>
      intro h
      rw [List.foldl_cons]
      have hstep : playerScanStep env shooter dirX dirY (range, none) a = (range, none) := by
        rcases playerScanStep_cases env shooter dirX dirY (range, none) a with hs |
          ⟨hid, hdead, harena, hspawn, hz, hdisc, ht0, htlt, hs⟩
        · exact hs
        · exact absurd ⟨ht0, htlt⟩
            (h a (List.mem_cons_self a rest) hid hdead harena hspawn hz hdisc)
      rw [hstep]
      exact ih (fun e he => h e (List.mem_cons_of_mem a he))

/-! ### Lemmas: key uniqueness of the player map -/

theorem mem_map_fst_mset {α : Type} {m : List (String × α)} {k x : String} {v : α}
    (h : x ∈ (mset m k v).map Prod.fst) : x = k ∨ x ∈ m.map Prod.fst := by
  obtain ⟨e, he, rfl⟩ := List.mem_map.mp h
  rcases mem_mset he with rfl | he2
  · exact Or.inl rfl
  · exact Or.inr (List.mem_map_of_mem Prod.fst he2)

theorem nodup_mset {α : Type} (m : List (String × α)) (k : String) (v : α)
    (h : (m.map Prod.fst).Nodup) : ((mset m k v).map Prod.fst).Nodup := by
  induction m with
  | nil => simp [mset]
  | cons e rest ih =>
      simp only [List.map_cons, List.nodup_cons] at h
      obtain ⟨h1, h2⟩ := h
      by_cases hk : e.1 = k
      · rw [mset, if_pos hk]
        simp only [List.map_cons, List.nodup_cons]
        exact ⟨by rw [← hk]; exact h1, h2⟩
      · rw [mset, if_neg hk]
        simp only [List.map_cons, List.nodup_cons]
        refine ⟨?_, ih h2⟩
        intro hmem
        rcases mem_map_fst_mset hmem with h3 | h3
        · exact hk h3
        · exact h1 h3

theorem nodup_mdel {α : Type} (m : List (String × α)) (k : String)
    (h : (m.map Prod.fst).Nodup) : ((mdel m k).map Prod.fst).Nodup := by
  unfold mdel
  exact List.Nodup.sublist (List.Sublist.map Prod.fst (List.filter_sublist m)) h

/-- In a duplicate-free map (a JS Map), membership determines the lookup. -/
theorem mlookup_eq_of_mem_nodup {α : Type} {m : List (String × α)} {e : String × α}
    (hnd : (m.map Prod.fst).Nodup) (he : e ∈ m) : mlookup m e.1 = some e.2 := by
  induction m with
  | nil => cases he
  | cons a rest ih =>
      simp only [List.map_cons, List.nodup_cons] at hnd
      rcases List.mem_cons.mp he with rfl | he2
      · rw [mlookup_cons, if_pos rfl]
      · rw [mlookup_cons, if_neg, ih hnd.2 he2]
        intro hk
        exact hnd.1 (hk ▸ List.mem_map_of_mem Prod.fst he2)

theorem mlookup_isSome_of_mem {α : Type} {m : List (String × α)} {e : String × α}
    (he : e ∈ m) : ∃ v, mlookup m e.1 = some v := by
  induction m with
  | nil => cases he
  | cons a rest ih =>
      rcases List.mem_cons.mp he with rfl | he2
      · exact ⟨e.2, by rw [mlookup_cons, if_pos rfl]⟩
      · by_cases hk : a.1 = e.1
        · exact ⟨a.2, by rw [mlookup_cons, if_pos hk]⟩
        · obtain ⟨v, hv⟩ := ih he2
          exact ⟨v, by rw [mlookup_cons, if_neg hk, hv]⟩

/-! ### Shield preservation: a dead or protected Combatant is never damaged -/

/-- The damage-relevant fields a shot must not change on an ineligible
Combatant. -/
def FieldsMatch (p q : PlayerState) : Prop :=
  q.health = p.health ∧ q.deaths = p.deaths ∧ q.isDead = p.isDead ∧ q.isInSpawn = p.isInSpawn

/-- The shield invariant: the player map is duplicate-free and the entry
at key k, if still present, agrees with t on health, deaths, isDead and
isInSpawn. -/
def ShieldKept (k : String) (t : PlayerState) (room : GameRoom) : Prop :=
  (room.players.map Prod.fst).Nodup ∧
  (mlookup room.players k = none ∨
   ∃ q, mlookup room.players k = some q ∧ FieldsMatch t q)

theorem ShieldKept_start (k : String) (t : PlayerState) (room : GameRoom)
    (hnd : (room.players.map Prod.fst).Nodup)
    (hl : mlookup room.players k = some t) : ShieldKept k t room :=
  ⟨hnd, Or.inr ⟨t, hl, rfl, rfl, rfl, rfl⟩⟩

/-- damagePlayer at another target preserves the shield: the target mset
misses key k, the source mset only changes kills, and endGame clears the
player map entirely. -/
theorem damagePlayer_ShieldKept (room : GameRoom) (tid2 : String) (d : ℚ) (sid k : String)
    (t : PlayerState) (hk : ¬ k = tid2) (h : ShieldKept k t room) :
    ShieldKept k t (damagePlayer room tid2 d sid).1 := by
  obtain ⟨hnd, hl⟩ := h
  unfold damagePlayer
  cases hx : mlookup room.players tid2 with
  | none => exact ⟨hnd, hl⟩
  | some player =>
      simp only []
      split_ifs with hfatal
      · have hnd1 : ((mset room.players tid2
            { player with health := 0, isDead := true,
                          deaths := player.deaths + 1 }).map Prod.fst).Nodup :=
          nodup_mset _ _ _ hnd
        have hl1 : mlookup (mset room.players tid2
            { player with health := 0, isDead := true, deaths := player.deaths + 1 }) k =
            mlookup room.players k := mlookup_mset_ne _ _ _ _ hk
        cases hy : mlookup (mset room.players tid2
            { player with health := 0, isDead := true, deaths := player.deaths + 1 }) sid with
        | none =>
            simp only []
            refine ⟨hnd1, ?_⟩
            rw [hl1]
            exact hl
        | some source =>
            simp only []
            split_ifs with hlimit
            · exact ⟨List.nodup_nil, Or.inl rfl⟩
            · refine ⟨nodup_mset _ _ _ hnd1, ?_⟩
              by_cases hks : k = sid
              · subst hks
                rw [mlookup_mset_self]
                rw [hl1] at hy
                rcases hl with hl | ⟨q, hq, hm⟩
                · rw [hl] at hy; cases hy
                · rw [hq] at hy
                  injection hy with hy
                  subst hy
                  exact Or.inr ⟨_, rfl, hm.1, hm.2.1, hm.2.2.1, hm.2.2.2⟩
              · rw [mlookup_mset_ne _ _ _ _ hks, hl1]
                exact hl
      · refine ⟨nodup_mset _ _ _ hnd, ?_⟩
        rw [mlookup_mset_ne _ _ _ _ hk]
        exact hl

/-- A projectile collision step cannot touch a dead or protected entry:
the found target passed the liveness and spawn checks, so it is a
different key, and damage at a different key keeps the shield. -/
theorem collideProjectile_ShieldKept (env : MathEnv) (room : GameRoom) (projId k : String)
    (t : PlayerState) (hsh : t.isDead = true ∨ t.isInSpawn = true)
    (h : ShieldKept k t room) :
    ShieldKept k t (collideProjectile env room projId).1 := by
  unfold collideProjectile
  cases hp : mlookup room.projectiles projId with
  | none => exact h
  | some proj =>
      simp only []
      cases hf : room.players.find? (projectileHitTarget env proj) with
      | none => exact h
      | some entry =>
          simp only []
          have hmem : entry ∈ room.players := List.mem_of_find?_eq_some hf
          have hpred : projectileHitTarget env proj entry = true :=
            List.find?_some hf
          have hfacts := of_decide_eq_true hpred
          have hk : ¬ k = entry.1 := by
            intro hkeq
            obtain ⟨hnd, hl⟩ := h
            have hle : mlookup room.players entry.1 = some entry.2 :=
              mlookup_eq_of_mem_nodup hnd hmem
            rcases hl with hl | ⟨q, hq, hm⟩
            · rw [hkeq, hle] at hl; cases hl
            · rw [hkeq, hle] at hq
              injection hq with hq
              subst hq
              rcases hsh with hd | hs
              · exact hfacts.2.1 (by rw [hm.2.2.1]; exact hd)
              · exact hfacts.2.2.2.1 (by rw [hm.2.2.2]; exact hs)
          exact damagePlayer_ShieldKept room entry.1 proj.damage proj.ownerId k t hk h

/-- The collision sweep preserves the shield for every dead or protected
Combatant. -/
theorem checkCollisions_ShieldKept (env : MathEnv) (room : GameRoom) (k : String)
    (t : PlayerState) (hsh : t.isDead = true ∨ t.isInSpawn = true)
    (h : ShieldKept k t room) :
    ShieldKept k t (checkCollisions env room).1 := by
  unfold checkCollisions
  have := foldl_preserves (fun acc : GameRoom × List GameEvent => ShieldKept k t acc.1)
    (fun acc pjId =>
      let step := collideProjectile env acc.1 pjId
      (step.1, acc.2 ++ step.2))
    (fun b a hb => collideProjectile_ShieldKept env b.1 a k t hsh hb)
    (room.projectiles.map Prod.fst) (room, []) h
  exact this

/-- A hitscan shot cannot touch a dead or protected entry: the player
scan skipped it, so the damaged key differs from k. -/
theorem handleHitscan_ShieldKept (env : MathEnv) (room : GameRoom) (sid : String)
    (angle damage range : ℚ) (k : String) (t : PlayerState)
    (hsh : t.isDead = true ∨ t.isInSpawn = true) (h : ShieldKept k t room) :
    ShieldKept k t (handleHitscan env room sid angle damage range).1 := by
  unfold handleHitscan
  cases hs : mlookup room.players sid with
  | none => exact h
  | some player =>
      simp only []
      cases hacc : (room.players.foldl
          (playerScanStep env player (env.cos angle) (env.sin angle))
          ((room.obstacles.foldl
            (fun acc e => obsScanStep player.x player.y (env.cos angle) (env.sin angle)
              (some e.1) acc ⟨e.2.x, e.2.y, e.2.width, e.2.height⟩)
            ((ARENAS player.currentArena).walls.foldl
              (obsScanStep player.x player.y (env.cos angle) (env.sin angle) none)
              (range, (none : Option String)))).1, (none : Option String))).2 with
      | none =>
          simp only [hacc]
          cases hb : (room.obstacles.foldl
              (fun acc e => obsScanStep player.x player.y (env.cos angle) (env.sin angle)
                (some e.1) acc ⟨e.2.x, e.2.y, e.2.width, e.2.height⟩)
              ((ARENAS player.currentArena).walls.foldl
                (obsScanStep player.x player.y (env.cos angle) (env.sin angle) none)
                (range, (none : Option String)))).2 with
          | none => exact h
          | some obsId =>
              simp only []
              cases ho : mlookup room.obstacles obsId with
              | none => exact h
              | some obs =>
                  simp only []
                  split_ifs with hdead
                  · exact h
                  · exact h
      | some targetId =>
          simp only [hacc]
          rcases playerScan_spec env player (env.cos angle) (env.sin angle) room.players
              ((room.obstacles.foldl
                (fun acc e => obsScanStep player.x player.y (env.cos angle) (env.sin angle)
                  (some e.1) acc ⟨e.2.x, e.2.y, e.2.width, e.2.height⟩)
                ((ARENAS player.currentArena).walls.foldl
                  (obsScanStep player.x player.y (env.cos angle) (env.sin angle) none)
                  (range, (none : Option String)))).1, (none : Option String)) with
            hfold | ⟨e, hmem, h2, hid2, hdead2, harena2, hspawn2, hz2, hdisc2, heq2, h02, hlt2⟩
          · rw [hfold] at hacc
            cases hacc
          · rw [hacc] at h2
            injection h2 with h2
            subst h2
            have hk : ¬ k = e.1 := by
              intro hkeq
              obtain ⟨hnd, hl⟩ := h
              have hle : mlookup room.players e.1 = some e.2 :=
                mlookup_eq_of_mem_nodup hnd hmem
              rcases hl with hl | ⟨q, hq, hm⟩
              · rw [hkeq, hle] at hl; cases hl
              · rw [hkeq, hle] at hq
                injection hq with hq
                subst hq
                rcases hsh with hd | hs2
                · rw [hm.2.2.1, hd] at hdead2; exact Bool.noConfusion hdead2
                · rw [hm.2.2.2, hs2] at hspawn2; exact Bool.noConfusion hspawn2
            exact damagePlayer_ShieldKept room e.1 damage player.id k t hk h

/-- A dead player is skipped by the per-player tick loop body entirely. -/
theorem playerTickStep_dead (env : MathEnv) (room : GameRoom) (pid : String)
    (now rand : ℚ) (p : PlayerState) (hl : mlookup room.players pid = some p)
    (hdead : p.isDead = true) :
    playerTickStep env room pid now rand = (room, []) := by
  unfold playerTickStep
  rw [hl]
  simp only []
  rw [if_pos hdead]

/-! ### Lemmas: ray-rectangle intersection from inside the rectangle -/

theorem jmax_fin (a b : ℚ) : JVal.jmax (.fin a) (.fin b) = .fin (jsMax a b) := by
  unfold JVal.jmax jsMax
  rw [if_neg (by simp)]
  simp only [JVal.lt, decide_eq_true_eq]
  split_ifs <;> rfl

theorem jmin_fin (a b : ℚ) : JVal.jmin (.fin a) (.fin b) = .fin (jsMin a b) := by
  unfold JVal.jmin jsMin
  rw [if_neg (by simp)]
  simp only [JVal.lt, decide_eq_true_eq]
  split_ifs <;> rfl

theorem jmax_neginf_fin (a : ℚ) : JVal.jmax .neginf (.fin a) = .fin a := by
  simp [JVal.jmax, JVal.lt]

theorem jmax_fin_neginf (a : ℚ) : JVal.jmax (.fin a) .neginf = .fin a := by
  simp [JVal.jmax, JVal.lt]

theorem jmin_posinf_fin (b : ℚ) : JVal.jmin .posinf (.fin b) = .fin b := by
  simp [JVal.jmin, JVal.lt]

theorem jmin_fin_posinf (b : ℚ) : JVal.jmin (.fin b) .posinf = .fin b := by
  simp [JVal.jmin, JVal.lt]

/-- With a zero direction component (inverse +∞) and the origin strictly
between the slab bounds, the sorted slab is (-∞, +∞). -/
theorem slabPair_inside_inf (lo hi o : ℚ) (hlo : lo < o) (hhi : o < hi) :
    slabPair lo hi o .posinf = (.neginf, .posinf) := by
  unfold slabPair
  simp only []
  have h1 : JVal.mul (.fin (lo - o)) .posinf = .neginf := by
    show (if 0 < lo - o then JVal.posinf
          else if lo - o < 0 then JVal.neginf else JVal.nan) = JVal.neginf
    rw [if_neg (by linarith), if_pos (by linarith)]
  have h2 : JVal.mul (.fin (hi - o)) .posinf = .posinf := by
    show (if 0 < hi - o then JVal.posinf
          else if hi - o < 0 then JVal.neginf else JVal.nan) = JVal.posinf
    rw [if_pos (by linarith)]
  rw [h1, h2]
  rw [if_neg (by simp [JVal.lt])]

/-- With a nonzero inverse and the origin strictly between the slab
bounds, the sorted slab is a finite pair straddling zero. -/
theorem slabPair_inside_fin (lo hi o q : ℚ) (hlo : lo < o) (hhi : o < hi) (hq : ¬ q = 0) :
    ∃ a b : ℚ, slabPair lo hi o (.fin q) = (.fin a, .fin b) ∧ a < 0 ∧ 0 < b := by
  unfold slabPair
  simp only [JVal.mul]
  rcases lt_or_gt_of_ne hq with hql | hqg
  · have hswap : JVal.lt (.fin ((hi - o) * q)) (.fin ((lo - o) * q)) = true := by
      simp only [JVal.lt, decide_eq_true_eq]
      exact mul_lt_mul_of_neg_right (by linarith) hql
    rw [if_pos hswap]
    exact ⟨(hi - o) * q, (lo - o) * q, rfl,
      mul_neg_of_pos_of_neg (by linarith) hql,
      mul_pos_of_neg_of_neg (by linarith) hql⟩
  · have hnoswap : ¬ (JVal.lt (.fin ((hi - o) * q)) (.fin ((lo - o) * q)) = true) := by
      simp only [JVal.lt, decide_eq_true_eq, not_lt]
      exact le_of_lt (mul_lt_mul_of_pos_right (by linarith) hqg)
    rw [if_neg hnoswap]
    exact ⟨(lo - o) * q, (hi - o) * q, rfl,
      mul_neg_of_neg_of_pos (by linarith) hqg,
      mul_pos (by linarith) hqg⟩

/-- The common tail of rayRectIntersect once both bounds are finite with
tEnter < 0 < tExit: every guard is false and the exit distance is
returned. -/
theorem rayRect_end (a b : ℚ) (ha : a < 0) (hb : 0 < b) :
    (if JVal.lt (.fin b) (.fin a) then (none : Option JVal)
     else if JVal.lt (.fin b) (.fin 0) then none
     else if JVal.lt (.fin 0) (.fin a) then some (.fin a) else some (.fin b)) =
    some (.fin b) := by
  have h1 : ¬ (JVal.lt (.fin b) (.fin a) = true) := by
    simp only [JVal.lt, decide_eq_true_eq, not_lt]; linarith
  have h2 : ¬ (JVal.lt (.fin b) (.fin 0) = true) := by
    simp only [JVal.lt, decide_eq_true_eq, not_lt]; linarith
  have h3 : ¬ (JVal.lt (.fin 0) (.fin a) = true) := by
    simp only [JVal.lt, decide_eq_true_eq, not_lt]; linarith
  rw [if_neg h1, if_neg h2, if_neg h3]

/-- Whenever rayRectIntersect returns a finite value, it is
non-negative: the enter distance is returned only under a positivity
guard and the exit distance only after a negativity test failed. -/
theorem rayRect_guard_nonneg (tEnter tExit : JVal) (x : ℚ)
    (h : (if JVal.lt tExit tEnter then (none : Option JVal)
          else if JVal.lt tExit (.fin 0) then none
          else if JVal.lt (.fin 0) tEnter then some tEnter else some tExit) =
         some (JVal.fin x)) : 0 ≤ x := by
  split_ifs at h with h1 h2 h3 <;>
    first
      | exact Option.noConfusion h
      | (injection h with h
         subst h
         first
           | (simp only [JVal.lt, decide_eq_true_eq] at h3
              linarith)
           | (simp only [JVal.lt, decide_eq_true_eq, not_lt] at h2
              exact h2))

theorem rayRectIntersect_fin_nonneg (ox oy dx dy : ℚ) (rect : Rect) (x : ℚ)
    (h : rayRectIntersect ox oy dx dy rect = some (JVal.fin x)) : 0 ≤ x := by
  unfold rayRectIntersect at h
  simp only [] at h
  exact rayRect_guard_nonneg _ _ x h

/-- A ray cast from strictly inside the rectangle, with at least one
nonzero direction component, exits: the intersection is a positive
finite distance. -/
theorem rayRectIntersect_inside_pos (ox oy dx dy : ℚ) (rect : Rect)
    (hx1 : rect.x < ox) (hx2 : ox < rect.x + rect.width)
    (hy1 : rect.y < oy) (hy2 : oy < rect.y + rect.height)
    (hd : ¬ dx = 0 ∨ ¬ dy = 0) :
    ∃ x : ℚ, rayRectIntersect ox oy dx dy rect = some (JVal.fin x) ∧ 0 < x := by
  unfold rayRectIntersect
  simp only []
  by_cases hdx : dx = 0
  · have hdy : ¬ dy = 0 := by
      rcases hd with h | h
      · exact absurd hdx h
      · exact h
    rw [if_pos hdx, if_neg hdy]
    rw [slabPair_inside_inf rect.x (rect.x + rect.width) ox hx1 hx2]
    obtain ⟨a2, b2, hsy, ha2, hb2⟩ := slabPair_inside_fin rect.y (rect.y + rect.height) oy
      (1 / dy) hy1 hy2 (one_div_ne_zero hdy)
    rw [hsy]
    simp only []
    rw [jmax_neginf_fin, jmin_posinf_fin]
    exact ⟨b2, rayRect_end a2 b2 ha2 hb2, hb2⟩
  · by_cases hdy : dy = 0
    · rw [if_neg hdx, if_pos hdy]
      obtain ⟨a1, b1, hsx, ha1, hb1⟩ := slabPair_inside_fin rect.x (rect.x + rect.width) ox
        (1 / dx) hx1 hx2 (one_div_ne_zero hdx)
      rw [hsx, slabPair_inside_inf rect.y (rect.y + rect.height) oy hy1 hy2]
      simp only []
      rw [jmax_fin_neginf, jmin_fin_posinf]
      exact ⟨b1, rayRect_end a1 b1 ha1 hb1, hb1⟩
    · rw [if_neg hdx, if_neg hdy]
      obtain ⟨a1, b1, hsx, ha1, hb1⟩ := slabPair_inside_fin rect.x (rect.x + rect.width) ox
        (1 / dx) hx1 hx2 (one_div_ne_zero hdx)
      obtain ⟨a2, b2, hsy, ha2, hb2⟩ := slabPair_inside_fin rect.y (rect.y + rect.height) oy
        (1 / dy) hy1 hy2 (one_div_ne_zero hdy)
      rw [hsx, hsy]
      simp only []
      rw [jmax_fin, jmin_fin]
      have hA : jsMax a1 a2 < 0 := by
        unfold jsMax
        split_ifs <;> assumption
      have hB : 0 < jsMin b1 b2 := by
        unfold jsMin
        split_ifs <;> assumption
      exact ⟨jsMin b1 b2, rayRect_end (jsMax a1 a2) (jsMin b1 b2) hA hB, hB⟩

/-- A positive finite intersection below the current best distance is
registered by the obstacle scan step. -/
theorem obsScanStep_registers (ox oy dx dy : ℚ) (rect : Rect) (x : ℚ)
    (hres : rayRectIntersect ox oy dx dy rect = some (.fin x)) (hx0 : 0 < x) :
    ∀ (oid : Option String) (acc : ℚ × Option String), x < acc.1 →
      obsScanStep ox oy dx dy oid acc rect = (x, oid) := by
  intro oid acc hlt
  unfold obsScanStep
  rw [hres]
  simp only []
  rw [if_pos ⟨by simp only [JVal.lt, decide_eq_true_eq]; exact hx0,
    by simp only [JVal.lt, decide_eq_true_eq]; exact hlt⟩]
  rfl

/-- damagePlayer at a different target key never changes the health
stored at key k (the source mset only raises kills; endGame removes the
entry altogether, which contradicts a successful lookup). -/
theorem damagePlayer_health_other (room : GameRoom) (tid2 : String) (d : ℚ) (sid k : String)
    (t t2 : PlayerState) (hk : ¬ k = tid2)
    (hl : mlookup room.players k = some t)
    (h2 : mlookup (damagePlayer room tid2 d sid).1.players k = some t2) :
    t2.health = t.health := by
  unfold damagePlayer at h2
  cases hx : mlookup room.players tid2 with
  | none =>
      rw [hx] at h2
      simp only [] at h2
      rw [hl] at h2
      injection h2 with h2
      rw [← h2]
  | some player =>
      rw [hx] at h2
      simp only [] at h2
      split_ifs at h2 with hfatal
      · cases hy : mlookup (mset room.players tid2
            { player with health := 0, isDead := true, deaths := player.deaths + 1 }) sid with
        | none =>
            rw [hy] at h2
            simp only [] at h2
            rw [mlookup_mset_ne _ _ _ _ hk, hl] at h2
            injection h2 with h2
            rw [← h2]
        | some source =>
            rw [hy] at h2
            simp only [] at h2
            split_ifs at h2 with hlimit
            · unfold endGame at h2
              simp only [] at h2
              simp [mlookup] at h2
            · by_cases hks : k = sid
              · subst hks
                rw [mlookup_mset_self] at h2
                injection h2 with h2
                rw [mlookup_mset_ne _ _ _ _ hk, hl] at hy
                injection hy with hy
                rw [← h2, ← hy]
              · rw [mlookup_mset_ne _ _ _ _ hks, mlookup_mset_ne _ _ _ _ hk, hl] at h2
                injection h2 with h2
                rw [← h2]
      · rw [mlookup_mset_ne _ _ _ _ hk, hl] at h2
        injection h2 with h2
        rw [← h2]

/-- C1: a Combatant under spawn protection takes no damage and cannot be
the target of a hitscan or projectile hit — its health and death count
are unchanged by any hitscan resolution and by the collision sweep, and
its protection flag still stands afterwards.  (The deal-no-damage half
of the claim is refuted separately: tryShoot has no shooter
spawn-protection check.) -/
theorem C1_protected_takes_no_damage (env : MathEnv) (room : GameRoom) (k : String)
    (t : PlayerState) (hnd : (room.players.map Prod.fst).Nodup)
    (hl : mlookup room.players k = some t) (hprot : t.isInSpawn = true) :
    (∀ sid angle damage range t2,
      mlookup (handleHitscan env room sid angle damage range).1.players k = some t2 →
      t2.health = t.health ∧ t2.deaths = t.deaths ∧ t2.isInSpawn = true) ∧
    (∀ t2, mlookup (checkCollisions env room).1.players k = some t2 →
      t2.health = t.health ∧ t2.deaths = t.deaths ∧ t2.isInSpawn = true) := by
  constructor
  · intro sid angle damage range t2 h2
    have hS := handleHitscan_ShieldKept env room sid angle damage range k t (Or.inr hprot)
      (ShieldKept_start k t room hnd hl)
    obtain ⟨-, hl2⟩ := hS
    rcases hl2 with hl2 | ⟨q, hq, hm⟩
    · rw [h2] at hl2; cases hl2
    · rw [h2] at hq
      injection hq with hq
      subst hq
      exact ⟨hm.1, hm.2.1, by rw [hm.2.2.2]; exact hprot⟩
  · intro t2 h2
    have hS := checkCollisions_ShieldKept env room k t (Or.inr hprot)
      (ShieldKept_start k t room hnd hl)
    obtain ⟨-, hl2⟩ := hS
    rcases hl2 with hl2 | ⟨q, hq, hm⟩
    · rw [h2] at hl2; cases hl2
    · rw [h2] at hq
      injection hq with hq
      subst hq
      exact ⟨hm.1, hm.2.1, by rw [hm.2.2.2]; exact hprot⟩

/-- C1 counterexample: the original claim also says a spawn-protected
Combatant can deal no damage; but the spawn-protected player a's live
rocket halves player b's health in one collision sweep (tryShoot and
checkCollisions never check the shooter's protection flag). -/
theorem C1_counterexample :
    (mlookup roomProtShooter.players "a").map PlayerState.isInSpawn = some true ∧
    (mlookup roomProtShooter.players "b").map PlayerState.health = some 100 ∧
    (mlookup (checkCollisions testEnv roomProtShooter).1.players "b").map
      PlayerState.health = some 50 := by
  refine ⟨by decide, by decide, ?_⟩
  norm_num [checkCollisions, collideProjectile, projectileHitTarget, damagePlayer, endGame,
    mlookup, mset, mdel, List.find?, roomProtShooter, baseRoom, basePlayer, baseProjectile,
    testEnv, jsAbs, Z_HIT_TOLERANCE, PLAYER_RADIUS, MAX_HEALTH, DEFAULT_Z, KILL_LIMIT]
  exact ⟨"b", _, rfl, rfl⟩

/-- C1 witness: the protected-player theorem applied to the concrete
protected player a of roomProtShooter. -/
theorem C1_witness :
    (roomProtShooter.players.map Prod.fst).Nodup ∧
    (∀ t2, mlookup (checkCollisions testEnv roomProtShooter).1.players "a" = some t2 →
      t2.health = ({ basePlayer "a" with isInSpawn := true } : PlayerState).health ∧
      t2.deaths = ({ basePlayer "a" with isInSpawn := true } : PlayerState).deaths ∧
      t2.isInSpawn = true) := by
  refine ⟨by decide, ?_⟩
  intro t2 h2
  exact (C1_protected_takes_no_damage testEnv roomProtShooter "a"
    { basePlayer "a" with isInSpawn := true } (by decide) (by decide) rfl).2 t2 h2

/-- C7: hitscan resolution (a) always emits the beam event first,
spanning from the shooter's position to the actual impact point; (b)
only damages a player whose ray distance is positive, below the maximum
range and strictly below every positive finite wall and breakable
obstacle intersection distance, so a nearer wall or obstacle occludes
every player behind it; and (c) on a total miss (no wall, obstacle or
player candidate within range) leaves the room unchanged and emits
exactly one beam ending at maximum range. -/
theorem C7_occlusion_and_beam (env : MathEnv) (room : GameRoom) (sid : String)
    (angle damage range : ℚ) (shooter : PlayerState)
    (hnd : (room.players.map Prod.fst).Nodup)
    (hs : mlookup room.players sid = some shooter) :
    (∃ endX endY evs, (handleHitscan env room sid angle damage range).2 =
        GameEvent.hitscanBeam shooter.id shooter.x shooter.y endX endY :: evs) ∧
    (∀ tid t t2, mlookup room.players tid = some t →
      mlookup (handleHitscan env room sid angle damage range).1.players tid = some t2 →
      t2.health < t.health →
      ∃ dist : ℚ,
        dist = rayCircleT env shooter.x shooter.y (env.cos angle) (env.sin angle) t.x t.y ∧
        0 < dist ∧ dist < range ∧
        (∀ w ∈ (ARENAS shooter.currentArena).walls, ∀ x : ℚ,
          rayRectIntersect shooter.x shooter.y (env.cos angle) (env.sin angle) w =
            some (JVal.fin x) → 0 < x → dist < x) ∧
        (∀ e ∈ room.obstacles, ∀ x : ℚ,
          rayRectIntersect shooter.x shooter.y (env.cos angle) (env.sin angle)
            ⟨e.2.x, e.2.y, e.2.width, e.2.height⟩ = some (JVal.fin x) → 0 < x →
            dist < x)) ∧
    ((∀ w ∈ (ARENAS shooter.currentArena).walls, ∀ t,
        rayRectIntersect shooter.x shooter.y (env.cos angle) (env.sin angle) w = some t →
        ¬ (JVal.lt (.fin 0) t = true ∧ JVal.lt t (.fin range) = true)) →
     (∀ e ∈ room.obstacles, ∀ t,
        rayRectIntersect shooter.x shooter.y (env.cos angle) (env.sin angle)
          ⟨e.2.x, e.2.y, e.2.width, e.2.height⟩ = some t →
        ¬ (JVal.lt (.fin 0) t = true ∧ JVal.lt t (.fin range) = true)) →
     (∀ e ∈ room.players, ¬ e.2.id = shooter.id → e.2.isDead = false →
        e.2.currentArena = shooter.currentArena → e.2.isInSpawn = false →
        jsAbs (e.2.z - shooter.z) ≤ Z_HIT_TOLERANCE →
        0 ≤ rayCircleDisc shooter.x shooter.y (env.cos angle) (env.sin angle) e.2.x e.2.y →
        ¬ (0 < rayCircleT env shooter.x shooter.y (env.cos angle) (env.sin angle)
              e.2.x e.2.y ∧
           rayCircleT env shooter.x shooter.y (env.cos angle) (env.sin angle)
              e.2.x e.2.y < range)) →
     handleHitscan env room sid angle damage range =
       (room, [GameEvent.hitscanBeam shooter.id shooter.x shooter.y
         (shooter.x + env.cos angle * range) (shooter.y + env.sin angle * range)])) := by
  refine ⟨?_, ?_, ?_⟩
  · unfold handleHitscan
    rw [hs]
    simp only []
    cases hacc : (room.players.foldl
        (playerScanStep env shooter (env.cos angle) (env.sin angle))
        ((room.obstacles.foldl
          (fun acc e => obsScanStep shooter.x shooter.y (env.cos angle) (env.sin angle)
            (some e.1) acc ⟨e.2.x, e.2.y, e.2.width, e.2.height⟩)
          ((ARENAS shooter.currentArena).walls.foldl
            (obsScanStep shooter.x shooter.y (env.cos angle) (env.sin angle) none)
            (range, (none : Option String)))).1, (none : Option String))).2 with
    | some targetId =>
        simp only []
        exact ⟨_, _, _, rfl⟩
    | none =>
        simp only []
        cases hb : (room.obstacles.foldl
            (fun acc e => obsScanStep shooter.x shooter.y (env.cos angle) (env.sin angle)
              (some e.1) acc ⟨e.2.x, e.2.y, e.2.width, e.2.height⟩)
            ((ARENAS shooter.currentArena).walls.foldl
              (obsScanStep shooter.x shooter.y (env.cos angle) (env.sin angle) none)
              (range, (none : Option String)))).2 with
        | none => exact ⟨_, _, [], rfl⟩
        | some obsId =>
            simp only []
            cases ho : mlookup room.obstacles obsId with
            | none => exact ⟨_, _, [], rfl⟩
            | some obs =>
                simp only []
                split_ifs with hdead
                · exact ⟨_, _, [], rfl⟩
                · exact ⟨_, _, [], rfl⟩
  · intro tid t t2 hlt h2 hdec
    unfold handleHitscan at h2
    rw [hs] at h2
    simp only [] at h2
    cases hacc : (room.players.foldl
        (playerScanStep env shooter (env.cos angle) (env.sin angle))
        ((room.obstacles.foldl
          (fun acc e => obsScanStep shooter.x shooter.y (env.cos angle) (env.sin angle)
            (some e.1) acc ⟨e.2.x, e.2.y, e.2.width, e.2.height⟩)
          ((ARENAS shooter.currentArena).walls.foldl
            (obsScanStep shooter.x shooter.y (env.cos angle) (env.sin angle) none)
            (range, (none : Option String)))).1, (none : Option String))).2 with
    | none =>
        rw [hacc] at h2
        simp only [] at h2
        cases hb : (room.obstacles.foldl
            (fun acc e => obsScanStep shooter.x shooter.y (env.cos angle) (env.sin angle)
              (some e.1) acc ⟨e.2.x, e.2.y, e.2.width, e.2.height⟩)
            ((ARENAS shooter.currentArena).walls.foldl
              (obsScanStep shooter.x shooter.y (env.cos angle) (env.sin angle) none)
              (range, (none : Option String)))).2 with
        | none =>
            rw [hb] at h2
            simp only [] at h2
            rw [hlt] at h2
            injection h2 with h2
            subst h2
            exact absurd hdec (lt_irrefl _)
        | some obsId =>
            rw [hb] at h2
            simp only [] at h2
            cases ho : mlookup room.obstacles obsId with
            | none =>
                rw [ho] at h2
                simp only [] at h2
                rw [hlt] at h2
                injection h2 with h2
                subst h2
                exact absurd hdec (lt_irrefl _)
            | some obs =>
                rw [ho] at h2
                simp only [] at h2
                split_ifs at h2 with hod
                · rw [hlt] at h2
                  injection h2 with h2
                  subst h2
                  exact absurd hdec (lt_irrefl _)
                · rw [hlt] at h2
                  injection h2 with h2
                  subst h2
                  exact absurd hdec (lt_irrefl _)
    | some targetId =>
        rw [hacc] at h2
        simp only [] at h2
        rcases playerScan_spec env shooter (env.cos angle) (env.sin angle) room.players
            ((room.obstacles.foldl
              (fun acc e => obsScanStep shooter.x shooter.y (env.cos angle) (env.sin angle)
                (some e.1) acc ⟨e.2.x, e.2.y, e.2.width, e.2.height⟩)
              ((ARENAS shooter.currentArena).walls.foldl
                (obsScanStep shooter.x shooter.y (env.cos angle) (env.sin angle) none)
                (range, (none : Option String)))).1, (none : Option String)) with
          hfold | ⟨e, hmem, h2f, hid2, hdead2, harena2, hspawn2, hz2, hdisc2, heq2, h02, hlt2⟩
        · rw [hfold] at hacc
          simp at hacc
        · rw [hacc] at h2f
          injection h2f with h2f
          subst h2f
          by_cases htid : tid = e.1
          · subst htid
            have hle : mlookup room.players e.1 = some e.2 :=
              mlookup_eq_of_mem_nodup hnd hmem
            rw [hlt] at hle
            injection hle with hle
            rw [← hle] at heq2
            have hwall := obsScanFold_spec shooter.x shooter.y (env.cos angle) (env.sin angle)
              (fun w : Rect => w) (fun _ : Rect => (none : Option String))
              ((ARENAS shooter.currentArena).walls) (range, (none : Option String))
            have hwall1 : ((ARENAS shooter.currentArena).walls.foldl
                (obsScanStep shooter.x shooter.y (env.cos angle) (env.sin angle) none)
                (range, (none : Option String))).1 ≤ range := hwall.1
            have hwall2 : ∀ w ∈ (ARENAS shooter.currentArena).walls, ∀ x : ℚ,
                rayRectIntersect shooter.x shooter.y (env.cos angle) (env.sin angle) w =
                  some (JVal.fin x) → 0 < x →
                ((ARENAS shooter.currentArena).walls.foldl
                  (obsScanStep shooter.x shooter.y (env.cos angle) (env.sin angle) none)
                  (range, (none : Option String))).1 ≤ x := hwall.2
            have hobs := obsScanFold_spec shooter.x shooter.y (env.cos angle) (env.sin angle)
              (fun e : String × BreakableObstacle =>
                (⟨e.2.x, e.2.y, e.2.width, e.2.height⟩ : Rect))
              (fun e : String × BreakableObstacle => some e.1)
              room.obstacles
              ((ARENAS shooter.currentArena).walls.foldl
                (obsScanStep shooter.x shooter.y (env.cos angle) (env.sin angle) none)
                (range, (none : Option String)))
            have hobs1 : (room.obstacles.foldl
                (fun acc e => obsScanStep shooter.x shooter.y (env.cos angle) (env.sin angle)
                  (some e.1) acc ⟨e.2.x, e.2.y, e.2.width, e.2.height⟩)
                ((ARENAS shooter.currentArena).walls.foldl
                  (obsScanStep shooter.x shooter.y (env.cos angle) (env.sin angle) none)
                  (range, (none : Option String)))).1 ≤
                ((ARENAS shooter.currentArena).walls.foldl
                  (obsScanStep shooter.x shooter.y (env.cos angle) (env.sin angle) none)
                  (range, (none : Option String))).1 := hobs.1
            have hobs2 : ∀ e2 ∈ room.obstacles, ∀ x : ℚ,
                rayRectIntersect shooter.x shooter.y (env.cos angle) (env.sin angle)
                  ⟨e2.2.x, e2.2.y, e2.2.width, e2.2.height⟩ = some (JVal.fin x) → 0 < x →
                (room.obstacles.foldl
                  (fun acc e => obsScanStep shooter.x shooter.y (env.cos angle) (env.sin angle)
                    (some e.1) acc ⟨e.2.x, e.2.y, e.2.width, e.2.height⟩)
                  ((ARENAS shooter.currentArena).walls.foldl
                    (obsScanStep shooter.x shooter.y (env.cos angle) (env.sin angle) none)
                    (range, (none : Option String)))).1 ≤ x := hobs.2
            refine ⟨_, heq2.symm ▸ rfl, h02, ?_, ?_, ?_⟩
            · exact lt_of_lt_of_le hlt2 (le_trans hobs1 hwall1)
            · intro w hw x hx hx0
              exact lt_of_lt_of_le hlt2 (le_trans hobs1 (hwall2 w hw x hx hx0))
            · intro e2 he2 x hx hx0
              exact lt_of_lt_of_le hlt2 (hobs2 e2 he2 x hx hx0)
          · have := damagePlayer_health_other room e.1 damage shooter.id tid t t2
              htid hlt h2
            rw [this] at hdec
            exact absurd hdec (lt_irrefl _)
  · intro hwalls hobsH hplayers
    unfold handleHitscan
    rw [hs]
    simp only []
    have hw : (ARENAS shooter.currentArena).walls.foldl
        (obsScanStep shooter.x shooter.y (env.cos angle) (env.sin angle) none)
        (range, (none : Option String)) = (range, none) :=
      obsScanFold_noHit shooter.x shooter.y (env.cos angle) (env.sin angle) range
        (fun w : Rect => w) (fun _ : Rect => (none : Option String))
        ((ARENAS shooter.currentArena).walls) hwalls
    rw [hw]
    have ho : room.obstacles.foldl
        (fun acc e => obsScanStep shooter.x shooter.y (env.cos angle) (env.sin angle)
          (some e.1) acc ⟨e.2.x, e.2.y, e.2.width, e.2.height⟩)
        ((range : ℚ), (none : Option String)) = (range, none) :=
      obsScanFold_noHit shooter.x shooter.y (env.cos angle) (env.sin angle) range
        (fun e : String × BreakableObstacle =>
          (⟨e.2.x, e.2.y, e.2.width, e.2.height⟩ : Rect))
        (fun e : String × BreakableObstacle => some e.1) room.obstacles hobsH
    rw [ho]
    simp only []
    have hp : room.players.foldl
        (playerScanStep env shooter (env.cos angle) (env.sin angle))
        ((range : ℚ), (none : Option String)) = (range, none) :=
      playerScan_noHit env shooter (env.cos angle) (env.sin angle) range
        room.players hplayers
    rw [hp]

/-- C7 witness: the occlusion/beam theorem applied to shooter a of the
baseline room; the very first conjunct exhibits the beam event. -/
theorem C7_witness :
    ∃ endX endY evs, (handleHitscan testEnv baseRoom "a" 0 8 1000).2 =
      GameEvent.hitscanBeam (basePlayer "a").id (basePlayer "a").x (basePlayer "a").y
        endX endY :: evs :=
  (C7_occlusion_and_beam testEnv baseRoom "a" 0 8 1000 (basePlayer "a")
    (by decide) (by decide)).1

/-- C6: a dead Combatant is skipped by the per-player tick loop body
(the whole room is unchanged by its step), and it is never the target of
hitscan or projectile damage — its health and death count are unchanged
by any hitscan resolution and by the collision sweep, and it stays dead.
(The kill-count half of the claim is refuted separately: a dead owner's
still-live projectile credits the dead owner with the kill.) -/
theorem C6_dead_player_skipped_and_untargetable (env : MathEnv) (room : GameRoom)
    (k : String) (t : PlayerState) (hnd : (room.players.map Prod.fst).Nodup)
    (hl : mlookup room.players k = some t) (hdead : t.isDead = true) :
    (∀ now rand, playerTickStep env room k now rand = (room, [])) ∧
    (∀ sid angle damage range t2,
      mlookup (handleHitscan env room sid angle damage range).1.players k = some t2 →
      t2.health = t.health ∧ t2.deaths = t.deaths ∧ t2.isDead = true) ∧
    (∀ t2, mlookup (checkCollisions env room).1.players k = some t2 →
      t2.health = t.health ∧ t2.deaths = t.deaths ∧ t2.isDead = true) := by
  refine ⟨fun now rand => playerTickStep_dead env room k now rand t hl hdead, ?_, ?_⟩
  · intro sid angle damage range t2 h2
    have hS := handleHitscan_ShieldKept env room sid angle damage range k t (Or.inl hdead)
      (ShieldKept_start k t room hnd hl)
    obtain ⟨-, hl2⟩ := hS
    rcases hl2 with hl2 | ⟨q, hq, hm⟩
    · rw [h2] at hl2; cases hl2
    · rw [h2] at hq
      injection hq with hq
      subst hq
      exact ⟨hm.1, hm.2.1, by rw [hm.2.2.1]; exact hdead⟩
  · intro t2 h2
    have hS := checkCollisions_ShieldKept env room k t (Or.inl hdead)
      (ShieldKept_start k t room hnd hl)
    obtain ⟨-, hl2⟩ := hS
    rcases hl2 with hl2 | ⟨q, hq, hm⟩
    · rw [h2] at hl2; cases hl2
    · rw [h2] at hq
      injection hq with hq
      subst hq
      exact ⟨hm.1, hm.2.1, by rw [hm.2.2.1]; exact hdead⟩

/-- C6 counterexample: the original claim also says a dead Combatant's
kill count is unchanged by any shot; but dead player a's still-live
round kills b and raises a's kill count from 0 to 1 while a stays
dead. -/
theorem C6_counterexample :
    (mlookup roomDeadOwner.players "a").map
      (fun p => (p.kills, p.isDead)) = some (0, true) ∧
    (mlookup (checkCollisions testEnv roomDeadOwner).1.players "a").map
      (fun p => (p.kills, p.isDead)) = some (1, true) := by
  refine ⟨by decide, ?_⟩
  norm_num [checkCollisions, collideProjectile, projectileHitTarget, damagePlayer, endGame,
    mlookup, mset, mdel, List.find?, roomDeadOwner, baseRoom, basePlayer, baseProjectile,
    testEnv, jsAbs, Z_HIT_TOLERANCE, PLAYER_RADIUS, MAX_HEALTH, DEFAULT_Z, KILL_LIMIT]

/-- C6 witness: the dead-player theorem applied to the concrete dead
player a of roomDeadOwner. -/
theorem C6_witness :
    playerTickStep testEnv roomDeadOwner "a" 0 0 = (roomDeadOwner, []) ∧
    (∀ t2, mlookup (checkCollisions testEnv roomDeadOwner).1.players "a" = some t2 →
      t2.health = ({ basePlayer "a" with isDead := true } : PlayerState).health ∧
      t2.deaths = ({ basePlayer "a" with isDead := true } : PlayerState).deaths ∧
      t2.isDead = true) := by
  have h := C6_dead_player_skipped_and_untargetable testEnv roomDeadOwner "a"
    { basePlayer "a" with isDead := true } (by decide) (by decide) rfl
  exact ⟨h.1 0 0, h.2.2⟩

/-- C9: whenever the ray-rectangle intersection routine returns a
finite distance, that distance is non-negative; and when the ray origin
lies strictly inside the rectangle and the direction is not the zero
vector, the routine returns a positive finite exit distance, which the
obstacle scan step then registers as the nearest blocker whenever it
beats the current best.  (The unconditional claim is refuted
separately: the routine can also return NaN.) -/
theorem C9_rayRect_nonneg_and_inside (ox oy dx dy : ℚ) (rect : Rect) :
    (∀ x : ℚ, rayRectIntersect ox oy dx dy rect = some (JVal.fin x) → 0 ≤ x) ∧
    (rect.x < ox → ox < rect.x + rect.width → rect.y < oy → oy < rect.y + rect.height →
      (¬ dx = 0 ∨ ¬ dy = 0) →
      ∃ x : ℚ, rayRectIntersect ox oy dx dy rect = some (JVal.fin x) ∧ 0 < x ∧
        (∀ (oid : Option String) (acc : ℚ × Option String), x < acc.1 →
          obsScanStep ox oy dx dy oid acc rect = (x, oid))) := by
  constructor
  · intro x h
    exact rayRectIntersect_fin_nonneg ox oy dx dy rect x h
  · intro hx1 hx2 hy1 hy2 hd
    obtain ⟨x, hres, hx0⟩ := rayRectIntersect_inside_pos ox oy dx dy rect hx1 hx2 hy1 hy2 hd
    exact ⟨x, hres, hx0, obsScanStep_registers ox oy dx dy rect x hres hx0⟩

/-- C9 counterexample: the routine does not always return a
non-negative number when it returns at all — with the origin on the
rectangle's right edge and a vertical ray, the zero-times-infinity slab
product makes it return NaN, a value that is neither non-negative nor
negative under the IEEE ordering, and which the obstacle scan then
never registers as a blocker. -/
theorem C9_counterexample :
    rayRectIntersect 10 5 0 1 ⟨0, 0, 10, 10⟩ = some JVal.nan ∧
    (∀ (oid : Option String) (acc : ℚ × Option String),
      obsScanStep 10 5 0 1 oid acc ⟨0, 0, 10, 10⟩ = acc) ∧
    JVal.lt (JVal.fin 0) JVal.nan = false ∧ JVal.lt JVal.nan (JVal.fin 0) = false := by
  have h1 : rayRectIntersect 10 5 0 1 ⟨0, 0, 10, 10⟩ = some JVal.nan := by
    norm_num [rayRectIntersect, slabPair, JVal.mul, JVal.jmax, JVal.jmin, JVal.lt]
    decide
  refine ⟨h1, ?_, rfl, rfl⟩
  intro oid acc
  unfold obsScanStep
  rw [h1]
  simp only []
  rw [if_neg]
  intro hcond
  exact Bool.noConfusion hcond.1

/-- C9 witness: the amended theorem applied to a ray from (5,5), a
point strictly inside the rectangle (0,0)-(10,10), with direction
(1,0). -/
theorem C9_witness :
    ∃ x : ℚ, rayRectIntersect 5 5 1 0 ⟨0, 0, 10, 10⟩ = some (JVal.fin x) ∧ 0 < x ∧
      (∀ (oid : Option String) (acc : ℚ × Option String), x < acc.1 →
        obsScanStep 5 5 1 0 oid acc ⟨0, 0, 10, 10⟩ = (x, oid)) :=
  (C9_rayRect_nonneg_and_inside 5 5 1 0 ⟨0, 0, 10, 10⟩).2 (by norm_num) (by norm_num)
    (by norm_num) (by norm_num) (Or.inl (by norm_num))

end SkyBattles
